import Mathlib

/-!
Verification of the color model and palette engine of
`src/backend/src/utils/color-helpers.ts`.

The TypeScript module is embedded shallowly:

* JS strings are `List Char` (all inputs of interest are ASCII);
  a thin `String` wrapper is provided for readable statements.
* JS `number` arithmetic is embedded as exact rational arithmetic (`ℚ`);
  all quantities occurring in this module are small-denominator rationals.
  `Math.round` is `jround` below (round half toward positive infinity,
  which is JS semantics).
* `parseInt` applied to a string with no parseable digits yields `NaN`;
  a JS number that may be `NaN` is embedded as `Option ℤ` (`none` = `NaN`).
  The only place `NaN` can arise in this module is `hexToRgb` on malformed
  hex input, so the parsed-color record `ColorInfoN` carries `Option ℤ`
  channels, while the conversion/palette math works on total `ℤ` records.
* The regular expressions of `parseColor` are embedded as explicit
  matchers: each is a straight sequence of literal characters, greedy
  `\d+` digit runs and `\s*` whitespace runs, searched at every start
  position (leftmost match), exactly like `String.prototype.match`.
  Since every `\d+` in these patterns is followed by a non-digit literal,
  the greedy non-backtracking scan coincides with regex semantics.
* `throw new Error(...)` is `Except.error` carrying the message string.
-/

/-- JS `Math.round`: round half toward positive infinity. -/
def jround (q : ℚ) : ℤ := ⌊q + 1 / 2⌋

/-- JS whitespace as relevant to `trim` and `\s` (ASCII part): space, tab,
line feed, carriage return, vertical tab, form feed. -/
def isSpaceCh (c : Char) : Bool :=
  c.toNat = 32 || c.toNat = 9 || c.toNat = 10 || c.toNat = 13 || c.toNat = 11 || c.toNat = 12

/-- `[0-9]`, i.e. regex `\d`. -/
def isDigitCh (c : Char) : Bool := 48 ≤ c.toNat && c.toNat ≤ 57

/-- Value of a decimal digit character. -/
def digitVal (c : Char) : ℕ := c.toNat - 48

/-- A hexadecimal digit, either case. -/
def isHexCh (c : Char) : Bool :=
  (48 ≤ c.toNat && c.toNat ≤ 57) || (97 ≤ c.toNat && c.toNat ≤ 102) ||
    (65 ≤ c.toNat && c.toNat ≤ 70)

/-- An upper-case hexadecimal digit (`0-9A-F`). -/
def isUpperHexCh (c : Char) : Bool :=
  (48 ≤ c.toNat && c.toNat ≤ 57) || (65 ≤ c.toNat && c.toNat ≤ 70)

/-- Value of a hexadecimal digit character (either case). -/
def hexCharVal (c : Char) : ℕ :=
  if 97 ≤ c.toNat then c.toNat - 87
  else if 65 ≤ c.toNat then c.toNat - 55
  else c.toNat - 48

/-- JS `toUpperCase` on one ASCII character. -/
def jsToUpperChar (c : Char) : Char :=
  if 97 ≤ c.toNat && c.toNat ≤ 122 then Char.ofNat (c.toNat - 32) else c

/-- JS `String.prototype.toUpperCase` (ASCII). -/
def jsToUpper (cs : List Char) : List Char := cs.map jsToUpperChar

/-- JS `String.prototype.trim`. -/
def trimL (cs : List Char) : List Char :=
  ((cs.dropWhile isSpaceCh).reverse.dropWhile isSpaceCh).reverse

/-- Value of a string of decimal digits. -/
def digitsVal (ds : List Char) : ℕ := ds.foldl (fun a c => 10 * a + digitVal c) 0

/-- Value of a string of hexadecimal digits. -/
def hexVal (ds : List Char) : ℕ := ds.foldl (fun a c => 16 * a + hexCharVal c) 0

/-- JS `parseInt(s, 16)`: skip whitespace, optional sign, optional `0x`/`0X`
prefix, then the longest run of hex digits; `NaN` (= `none`) if that run is
empty. -/
def parseIntHex (s : List Char) : Option ℤ :=
  let s1 := s.dropWhile isSpaceCh
  let sgn : ℤ := if s1.head? = some '-' then -1 else 1
  let s2 := if s1.head? = some '-' || s1.head? = some '+' then s1.tail else s1
  let s3 :=
    if s2.head? = some '0' && (s2.tail.head? = some 'x' || s2.tail.head? = some 'X') then
      s2.tail.tail
    else s2
  let ds := s3.takeWhile isHexCh
  if ds.isEmpty then none else some (sgn * (hexVal ds : ℤ))

/-- JS `parseInt(s)` as used in `parseColor`: its argument is always a
`\d+` capture group, i.e. a nonempty run of decimal digits, on which
`parseInt` returns exactly the decimal value. -/
def parseIntDec (ds : List Char) : ℤ := (digitsVal ds : ℤ)

/-- JS `n.toString(16)` for a natural number: lowercase hex digits. -/
def natToHex (n : ℕ) : List Char := Nat.toDigits 16 n

/-- JS `n.toString(16)` for an integer (negative values print a minus sign). -/
def toHexJS (n : ℤ) : List Char :=
  if n < 0 then '-' :: natToHex n.natAbs else natToHex n.toNat

/-- The zero-padding step of `toHex` in `rgbToHex`:
`hex.length === 1 ? '0' + hex : hex`. -/
def pad2 (cs : List Char) : List Char := if cs.length = 1 then '0' :: cs else cs

/-- An RGB triple as produced by the conversion math (no `NaN` possible). -/
structure RGB where
  r : ℤ
  g : ℤ
  b : ℤ
deriving DecidableEq, Repr

/-- An HSL triple as produced by the conversion math (no `NaN` possible). -/
structure HSL where
  h : ℤ
  s : ℤ
  l : ℤ
deriving DecidableEq, Repr

/-- An RGB triple whose channels may be `NaN` (JS numbers out of `parseInt`). -/
structure RGBN where
  r : Option ℤ
  g : Option ℤ
  b : Option ℤ
deriving DecidableEq, Repr

/-- An HSL triple whose channels may be `NaN`. -/
structure HSLN where
  h : Option ℤ
  s : Option ℤ
  l : Option ℤ
deriving DecidableEq, Repr

/-- `ColorInfo` with total integer channels, used by the palette and naming
functions (their inputs never carry `NaN`). -/
structure ColorInfo where
  hex : List Char
  rgb : RGB
  hsl : HSL
  name : Option String := none
deriving DecidableEq, Repr

/-- `ColorInfo` as produced by `parseColor`, whose channels may be `NaN`
when a `#`-prefixed input has malformed hex digits. -/
structure ColorInfoN where
  hex : List Char
  rgb : RGBN
  hsl : HSLN
  name : Option String := none
deriving DecidableEq, Repr

/-- Inclusion of `NaN`-free channels. -/
def rgbnOf (rgb : RGB) : RGBN := { r := some rgb.r, g := some rgb.g, b := some rgb.b }

/-- Inclusion of `NaN`-free channels. -/
def hslnOf (hsl : HSL) : HSLN := { h := some hsl.h, s := some hsl.s, l := some hsl.l }

/-- `hexToRgb`: strip one leading `#`, expand 3-digit shorthand by doubling
each character, then `parseInt(hex.substring(0,2), 16)` and so on for the
three channels.  A channel is `none` (`NaN`) when its substring has no
parseable hex digits. -/
def hexToRgb (hex0 : List Char) : RGBN :=
  let hex1 := if hex0.head? = some '#' then hex0.tail else hex0
  let hex := if hex1.length = 3 then (hex1.map (fun c => [c, c])).flatten else hex1
  { r := parseIntHex (hex.take 2)
    g := parseIntHex ((hex.drop 2).take 2)
    b := parseIntHex ((hex.drop 4).take 2) }

/-- `rgbToHex`: each channel printed in hex, padded to two digits, joined
with a `#` and upper-cased.  (The source applies `Math.round` to each
channel first; on the integer channels of the embedding this is the
identity and is omitted.) -/
def rgbToHex (rgb : RGB) : List Char :=
  jsToUpper ('#' :: (pad2 (toHexJS rgb.r) ++ pad2 (toHexJS rgb.g) ++ pad2 (toHexJS rgb.b)))

/-- `rgbToHsl`, the standard max/min/diff algorithm of the source with the
JS `switch (max)` rendered as a first-match conditional chain (its default
leaves `h = 0`, also the value used when `diff === 0`). -/
def rgbToHsl (rgb : RGB) : HSL :=
  let r : ℚ := rgb.r / 255
  let g : ℚ := rgb.g / 255
  let b : ℚ := rgb.b / 255
  let mx := max r (max g b)
  let mn := min r (min g b)
  let diff := mx - mn
  let l := (mx + mn) / 2
  let s := if diff ≠ 0 then (if l > 1 / 2 then diff / (2 - mx - mn) else diff / (mx + mn)) else 0
  let h :=
    if diff ≠ 0 then
      (if mx = r then ((g - b) / diff + (if g < b then (6 : ℚ) else 0)) / 6
       else if mx = g then ((b - r) / diff + 2) / 6
       else if mx = b then ((r - g) / diff + 4) / 6
       else 0)
    else 0
  { h := jround (h * 360), s := jround (s * 100), l := jround (l * 100) }

/-- The inner `hue2rgb` helper of `hslToRgb`, verbatim. -/
def hue2rgb (p q t0 : ℚ) : ℚ :=
  let t1 := if t0 < 0 then t0 + 1 else t0
  let t := if t1 > 1 then t1 - 1 else t1
  if t < 1 / 6 then p + (q - p) * 6 * t
  else if t < 1 / 2 then q
  else if t < 2 / 3 then p + (q - p) * (2 / 3 - t) * 6
  else p

/-- `hslToRgb`, verbatim from the source. -/
def hslToRgb (hsl : HSL) : RGB :=
  let h : ℚ := hsl.h / 360
  let s : ℚ := hsl.s / 100
  let l : ℚ := hsl.l / 100
  if s = 0 then
    { r := jround (l * 255), g := jround (l * 255), b := jround (l * 255) }
  else
    let q := if l < 1 / 2 then l * (1 + s) else l + s - l * s
    let p := 2 * l - q
    { r := jround (hue2rgb p q (h + 1 / 3) * 255)
      g := jround (hue2rgb p q h * 255)
      b := jround (hue2rgb p q (h - 1 / 3) * 255) }

/-- `rgbToHsl` lifted to possibly-`NaN` channels, following IEEE/JS `NaN`
propagation in the source text of `rgbToHsl`: if any channel is `NaN` then
`max`, `min`, `diff` and `l` are `NaN`, `diff !== 0` is true, the
saturation quotient is `NaN`, and no `switch (max)` case matches (`NaN`
compares unequal to everything) so `h` keeps its initial `0`; hence the
result is `{ h: 0, s: NaN, l: NaN }`. -/
def rgbToHslN (rgb : RGBN) : HSLN :=
  match rgb.r, rgb.g, rgb.b with
  | some r, some g, some b => hslnOf (rgbToHsl { r := r, g := g, b := b })
  | _, _, _ => { h := some 0, s := none, l := none }

/-- Case-insensitive match of one literal pattern character (the regexes in
`parseColor` carry the `i` flag). -/
def matchLit (c : Char) : List Char → Option (List Char)
  | x :: t => if jsToUpperChar x = jsToUpperChar c then some t else none
  | [] => none

/-- Greedy `\d+`: the longest nonempty run of leading digits, returned with
the rest of the string; `none` when there is no leading digit. -/
def matchDigits (cs : List Char) : Option (List Char × List Char) :=
  if (cs.takeWhile isDigitCh).isEmpty then none
  else some (cs.takeWhile isDigitCh, cs.dropWhile isDigitCh)

/-- The regex `rgb\((\d+),\s*(\d+),\s*(\d+)\)` (flag `i`) matched at the
start of the given string, returning the three capture groups. -/
def matchRgbAt (cs : List Char) : Option (List Char × List Char × List Char) := do
  let s1 ← matchLit 'r' cs
  let s2 ← matchLit 'g' s1
  let s3 ← matchLit 'b' s2
  let s4 ← matchLit '(' s3
  let (d1, s5) ← matchDigits s4
  let s6 ← matchLit ',' s5
  let (d2, s7) ← matchDigits (s6.dropWhile isSpaceCh)
  let s8 ← matchLit ',' s7
  let (d3, s9) ← matchDigits (s8.dropWhile isSpaceCh)
  let _ ← matchLit ')' s9
  pure (d1, d2, d3)

/-- `color.match(/rgb\((\d+),\s*(\d+),\s*(\d+)\)/i)`: leftmost match. -/
def searchRgb : List Char → Option (List Char × List Char × List Char)
  | [] => none
  | c :: t =>
    match matchRgbAt (c :: t) with
    | some res => some res
    | none => searchRgb t

/-- The regex `hsl\((\d+),\s*(\d+)%,\s*(\d+)%\)` (flag `i`) matched at the
start of the given string. -/
def matchHslAt (cs : List Char) : Option (List Char × List Char × List Char) := do
  let s1 ← matchLit 'h' cs
  let s2 ← matchLit 's' s1
  let s3 ← matchLit 'l' s2
  let s4 ← matchLit '(' s3
  let (d1, s5) ← matchDigits s4
  let s6 ← matchLit ',' s5
  let (d2, s7) ← matchDigits (s6.dropWhile isSpaceCh)
  let s8 ← matchLit '%' s7
  let s9 ← matchLit ',' s8
  let (d3, s10) ← matchDigits (s9.dropWhile isSpaceCh)
  let s11 ← matchLit '%' s10
  let _ ← matchLit ')' s11
  pure (d1, d2, d3)

/-- `color.match(/hsl\((\d+),\s*(\d+)%,\s*(\d+)%\)/i)`: leftmost match. -/
def searchHsl : List Char → Option (List Char × List Char × List Char)
  | [] => none
  | c :: t =>
    match matchHslAt (c :: t) with
    | some res => some res
    | none => searchHsl t

/-- The final bare-hex test `/^[0-9A-F]{6}$/i.test(color)`. -/
def isHex6 (cs : List Char) : Bool := cs.length = 6 && cs.all isHexCh

/-- The error message thrown by `parseColor`. -/
def invalidColorMsg : String :=
  "Invalid color format. Use HEX (#RRGGBB), RGB (rgb(r,g,b)), or HSL (hsl(h,s%,l%))"

/-- `parseColor`, with explicit fuel for its one self-call
`parseColor('#' + color)` (reached at most once: the prefixed string then
takes the `#` branch, so fuel 2 suffices and fuel 0 is unreachable). -/
def parseColorFuel : ℕ → List Char → Except String ColorInfoN
  | 0, _ => .error invalidColorMsg
  | fuel + 1, cs =>
    let color := trimL cs
    if color.head? = some '#' then
      let rgb := hexToRgb color
      .ok { hex := jsToUpper color, rgb := rgb, hsl := rgbToHslN rgb }
    else
      match searchRgb color with
      | some (d1, d2, d3) =>
        let rgb : RGB := { r := parseIntDec d1, g := parseIntDec d2, b := parseIntDec d3 }
        .ok { hex := rgbToHex rgb, rgb := rgbnOf rgb, hsl := hslnOf (rgbToHsl rgb) }
      | none =>
        match searchHsl color with
        | some (e1, e2, e3) =>
          let hsl : HSL := { h := parseIntDec e1, s := parseIntDec e2, l := parseIntDec e3 }
          let rgb := hslToRgb hsl
          .ok { hex := rgbToHex rgb, rgb := rgbnOf rgb, hsl := hslnOf hsl }
        | none =>
          if isHex6 color then parseColorFuel fuel ('#' :: color)
          else .error invalidColorMsg

/-- `parseColor` on character lists. -/
def parseColorL (cs : List Char) : Except String ColorInfoN := parseColorFuel 2 cs

/-- `parseColor` on Lean strings. -/
def parseColor (s : String) : Except String ColorInfoN := parseColorL s.data

/-- `getComplementary`.  JS `%` is truncating remainder, embedded as
`Int.tmod` (identical to Euclidean `%` on the nonnegative hues that occur
here). -/
def getComplementary (color : ColorInfo) : ColorInfo :=
  let hsl : HSL := { color.hsl with h := Int.tmod (color.hsl.h + 180) 360 }
  let rgb := hslToRgb hsl
  { hex := rgbToHex rgb, rgb := rgb, hsl := hsl }

/-- `getAnalogous`: hue offsets −30, 0, 30 with a `+360` guard before `%`. -/
def getAnalogous (color : ColorInfo) : List ColorInfo :=
  ([-30, 0, 30] : List ℤ).map fun angle =>
    let hsl : HSL := { color.hsl with h := Int.tmod (color.hsl.h + angle + 360) 360 }
    let rgb := hslToRgb hsl
    { hex := rgbToHex rgb, rgb := rgb, hsl := hsl }

/-- `getTriadic`: hue offsets 0, 120, 240. -/
def getTriadic (color : ColorInfo) : List ColorInfo :=
  ([0, 120, 240] : List ℤ).map fun angle =>
    let hsl : HSL := { color.hsl with h := Int.tmod (color.hsl.h + angle) 360 }
    let rgb := hslToRgb hsl
    { hex := rgbToHex rgb, rgb := rgb, hsl := hsl }

/-- `getMonochromatic`: `count` samples with lightness `10 + (80/(count-1))*i`,
rounded.  (For `count = 1` the JS step would be `Infinity`; rational division
by zero yields `0` instead, a divergence outside the documented
`count ∈ [3,10]` domain, which the claims restrict to.) -/
def getMonochromatic (color : ColorInfo) (count : ℕ) : List ColorInfo :=
  let step : ℚ := 80 / ((count : ℚ) - 1)
  (List.range count).map fun (i : ℕ) =>
    let hsl : HSL := { color.hsl with l := jround (10 + step * (i : ℚ)) }
    let rgb := hslToRgb hsl
    { hex := rgbToHex rgb, rgb := rgb, hsl := hsl }

/-- `getTetradic`: hue offsets 0, 90, 180, 270. -/
def getTetradic (color : ColorInfo) : List ColorInfo :=
  ([0, 90, 180, 270] : List ℤ).map fun angle =>
    let hsl : HSL := { color.hsl with h := Int.tmod (color.hsl.h + angle) 360 }
    let rgb := hslToRgb hsl
    { hex := rgbToHex rgb, rgb := rgb, hsl := hsl }

/-- The hue band table of `getColorName`. -/
structure HueRange where
  max : ℤ
  name : String
deriving DecidableEq, Repr

/-- The `hueNames` table, verbatim. -/
def hueNames : List HueRange :=
  [⟨15, "Red"⟩, ⟨45, "Orange"⟩, ⟨70, "Yellow"⟩, ⟨150, "Green"⟩, ⟨210, "Cyan"⟩,
    ⟨250, "Blue"⟩, ⟨290, "Purple"⟩, ⟨330, "Magenta"⟩, ⟨360, "Red"⟩]

/-- `getColorName`, verbatim: achromatic lightness bands below saturation
10, otherwise the first hue band with `h <= max` (default `'Red'`) behind a
first-match-wins lightness/saturation modifier. -/
def getColorName (color : ColorInfo) : String :=
  let h := color.hsl.h
  let s := color.hsl.s
  let l := color.hsl.l
  if s < 10 then
    if l < 20 then "Black"
    else if l < 40 then "Dark Gray"
    else if l < 60 then "Gray"
    else if l < 80 then "Light Gray"
    else "White"
  else
    let hueName := ((hueNames.find? (fun range => h ≤ range.max)).map HueRange.name).getD "Red"
    let pfx :=
      if l < 30 then "Dark "
      else if l > 70 then "Light "
      else if s < 40 then "Pale "
      else if s > 80 then "Vivid "
      else ""
    pfx ++ hueName

instance : Inhabited ColorInfo := ⟨{ hex := [], rgb := ⟨0, 0, 0⟩, hsl := ⟨0, 0, 0⟩ }⟩

/-- The rendering of one channel inside `rgbToHex`: two-digit padded,
upper-cased hex. -/
def hexPair (n : ℕ) : List Char := jsToUpper (pad2 (natToHex n))

/-- Specification-side restatement of the achromatic lightness bands
(the band table is the source's; the claim asserts the achromatic branch
returns only the band name, with no modifier). -/
def lightnessNameOf (l : ℤ) : String :=
  if l < 20 then "Black"
  else if l < 40 then "Dark Gray"
  else if l < 60 then "Gray"
  else if l < 80 then "Light Gray"
  else "White"

/-- Specification-side hue band lookup: first entry of the table with
`h ≤ max`, defaulting to `"Red"`. -/
def hueNameOf (h : ℤ) : String :=
  ((hueNames.find? (fun range => h ≤ range.max)).map HueRange.name).getD "Red"

/-- Specification-side modifier cascade, exactly as the claim words it:
first-match-wins among `l<30 → "Dark "`, `l>70 → "Light "`, `s<40 →
"Pale "`, `s>80 → "Vivid "`, else no modifier. -/
def pfxSpec (s l : ℤ) : String :=
  if l < 30 then "Dark "
  else if l > 70 then "Light "
  else if s < 40 then "Pale "
  else if s > 80 then "Vivid "
  else ""

/-- The wrap adjustment at the top of `hue2rgb`. -/
def adjustT (t0 : ℚ) : ℚ :=
  if (if t0 < 0 then t0 + 1 else t0) > 1 then (if t0 < 0 then t0 + 1 else t0) - 1
  else (if t0 < 0 then t0 + 1 else t0)

/-- The value part of `hue2rgb`. -/
def hue2rgbVal (p q t : ℚ) : ℚ :=
  if t < 1 / 6 then p + (q - p) * 6 * t
  else if t < 1 / 2 then q
  else if t < 2 / 3 then p + (q - p) * (2 / 3 - t) * 6
  else p

/-- The `q` of `hslToRgb` as a function of the integer saturation and
lightness. -/
def qfun (s l : ℤ) : ℚ :=
  if (l : ℚ) / 100 < 1 / 2 then (l : ℚ) / 100 * (1 + (s : ℚ) / 100)
  else (l : ℚ) / 100 + (s : ℚ) / 100 - (l : ℚ) / 100 * ((s : ℚ) / 100)

/-- The hex/rgb/hsl consistency invariant the spec claims for every parsed
color: canonical 7-character upper-case `#RRGGBB` hex, `rgb = hexToRgb hex`
and `hsl = rgbToHsl rgb`. -/
def colorInvariant (info : ColorInfoN) : Prop :=
  info.hex.length = 7 ∧ info.hex.head? = some '#' ∧
    (∀ c ∈ info.hex.tail, isUpperHexCh c = true) ∧
    hexToRgb info.hex = info.rgb ∧ rgbToHslN info.rgb = info.hsl

/-! ### Basic facts about `jround` -/

theorem jround_intCast (n : ℤ) : jround (n : ℚ) = n := by
  unfold jround
  rw [Int.floor_eq_iff]
  constructor <;> linarith

theorem jround_mono {a b : ℚ} (h : a ≤ b) : jround a ≤ jround b := by
  unfold jround
  exact Int.floor_mono (by linarith)

theorem le_jround {a : ℤ} {q : ℚ} (h : (a : ℚ) ≤ q) : a ≤ jround q := by
  have h2 := jround_mono h
  rwa [jround_intCast] at h2

theorem jround_le {b : ℤ} {q : ℚ} (h : q ≤ (b : ℚ)) : jround q ≤ b := by
  have h2 := jround_mono h
  rwa [jround_intCast] at h2

theorem jround_eq_of_close {n : ℤ} {q : ℚ} (h1 : (n : ℚ) - 1 / 2 ≤ q)
    (h2 : q < (n : ℚ) + 1 / 2) : jround q = n := by
  unfold jround
  rw [Int.floor_eq_iff]
  constructor <;> linarith

theorem jround_bracket (q : ℚ) : q - 1 / 2 < (jround q : ℚ) ∧ (jround q : ℚ) ≤ q + 1 / 2 := by
  unfold jround
  constructor
  · have h := Int.lt_floor_add_one (q + 1 / 2)
    linarith
  · have h := Int.floor_le (q + 1 / 2)
    linarith

/-! ### Claim C6: hue wrap invariant of the harmony transforms -/

theorem tmod360_bounds {a : ℤ} (ha : 0 ≤ a) : 0 ≤ Int.tmod a 360 ∧ Int.tmod a 360 < 360 :=
  ⟨Int.tmod_nonneg 360 ha, Int.tmod_lt_of_pos a (by norm_num)⟩

/-- C6: for a base color whose hue is an integer in [0,360), every color
returned by `getComplementary`, `getAnalogous`, `getTriadic` and
`getTetradic` has hue in [0,360), with saturation and lightness copied
unchanged from the base. -/
theorem C6_harmony_hue_wrap (base : ColorInfo) (h0 : 0 ≤ base.hsl.h)
    (h1 : base.hsl.h < 360) :
    (0 ≤ (getComplementary base).hsl.h ∧ (getComplementary base).hsl.h < 360 ∧
        (getComplementary base).hsl.s = base.hsl.s ∧
        (getComplementary base).hsl.l = base.hsl.l) ∧
      (∀ c ∈ getAnalogous base, 0 ≤ c.hsl.h ∧ c.hsl.h < 360 ∧
        c.hsl.s = base.hsl.s ∧ c.hsl.l = base.hsl.l) ∧
      (∀ c ∈ getTriadic base, 0 ≤ c.hsl.h ∧ c.hsl.h < 360 ∧
        c.hsl.s = base.hsl.s ∧ c.hsl.l = base.hsl.l) ∧
      (∀ c ∈ getTetradic base, 0 ≤ c.hsl.h ∧ c.hsl.h < 360 ∧
        c.hsl.s = base.hsl.s ∧ c.hsl.l = base.hsl.l) := by
  refine ⟨?_, ?_, ?_, ?_⟩
  · obtain ⟨hl, hr⟩ := tmod360_bounds (a := base.hsl.h + 180) (by omega)
    exact ⟨hl, hr, rfl, rfl⟩
  · intro c hc
    simp only [getAnalogous, List.mem_map, List.mem_cons, List.mem_singleton] at hc
    obtain ⟨angle, hangle, rfl⟩ := hc
    have hnn : 0 ≤ base.hsl.h + angle + 360 := by
      rcases hangle with rfl | rfl | rfl | h
      · omega
      · omega
      · omega
      · simp at h
    obtain ⟨hl, hr⟩ := tmod360_bounds hnn
    exact ⟨hl, hr, rfl, rfl⟩
  · intro c hc
    simp only [getTriadic, List.mem_map, List.mem_cons, List.mem_singleton] at hc
    obtain ⟨angle, hangle, rfl⟩ := hc
    have hnn : 0 ≤ base.hsl.h + angle := by
      rcases hangle with rfl | rfl | rfl | h
      · omega
      · omega
      · omega
      · simp at h
    obtain ⟨hl, hr⟩ := tmod360_bounds hnn
    exact ⟨hl, hr, rfl, rfl⟩
  · intro c hc
    simp only [getTetradic, List.mem_map, List.mem_cons, List.mem_singleton] at hc
    obtain ⟨angle, hangle, rfl⟩ := hc
    have hnn : 0 ≤ base.hsl.h + angle := by
      rcases hangle with rfl | rfl | rfl | rfl | h
      · omega
      · omega
      · omega
      · omega
      · simp at h
    obtain ⟨hl, hr⟩ := tmod360_bounds hnn
    exact ⟨hl, hr, rfl, rfl⟩

theorem C6_harmony_hue_wrap_witness :
    (0 : ℤ) ≤ 120 ∧ (120 : ℤ) < 360 ∧
      ∀ c ∈ getTetradic { hex := [], rgb := ⟨0, 255, 0⟩, hsl := ⟨120, 100, 50⟩ },
        0 ≤ c.hsl.h ∧ c.hsl.h < 360 ∧ c.hsl.s = 100 ∧ c.hsl.l = 50 :=
  ⟨by norm_num, by norm_num,
    (C6_harmony_hue_wrap { hex := [], rgb := ⟨0, 255, 0⟩, hsl := ⟨120, 100, 50⟩ }
      (by norm_num) (by norm_num)).2.2.2⟩


/-! ### Claim C7: monochromatic palette -/

theorem getMonochromatic_length (base : ColorInfo) (count : ℕ) :
    (getMonochromatic base count).length = count := by
  unfold getMonochromatic
  rw [List.length_map, List.length_range]

theorem getMonochromatic_map_hsl (base : ColorInfo) (count : ℕ) :
    (getMonochromatic base count).map (fun c => c.hsl) =
      (List.range count).map
        (fun (i : ℕ) =>
          { h := base.hsl.h, s := base.hsl.s,
            l := jround (10 + 80 / ((count : ℚ) - 1) * (i : ℚ)) }) := by
  unfold getMonochromatic
  rw [List.map_map]
  rfl

theorem getMonochromatic_hsl (base : ColorInfo) (count : ℕ) {i : ℕ} (hi : i < count) :
    ((getMonochromatic base count).getD i default).hsl =
      { h := base.hsl.h, s := base.hsl.s,
        l := jround (10 + 80 / ((count : ℚ) - 1) * (i : ℚ)) } := by
  have hlen : i < (getMonochromatic base count).length := by
    rw [getMonochromatic_length]; exact hi
  have hmap := congrArg (fun xs => xs.getD i (default : ColorInfo).hsl)
    (getMonochromatic_map_hsl base count)
  simp only at hmap
  rw [List.getD_eq_getElem _ _ (by simpa using hlen), List.getElem_map] at hmap
  rw [List.getD_eq_getElem _ _ (by simpa [List.length_range] using hi),
    List.getElem_map, List.getElem_range] at hmap
  rw [List.getD_eq_getElem _ _ hlen]
  exact hmap

/-- C7: for `count ∈ [3,10]`, `getMonochromatic` returns exactly `count`
colors whose hue and saturation equal the base's and whose lightness at
index `i` is `round(10 + (80/(count-1))·i)`, stepping from exactly 10 at
`i = 0` to exactly 90 at `i = count-1`; in particular for `count = 5` the
lightness values are 10, 30, 50, 70, 90. -/
theorem C7_monochromatic_steps (base : ColorInfo) (count : ℕ)
    (h3 : 3 ≤ count) (h10 : count ≤ 10) :
    (getMonochromatic base count).length = count ∧
      (∀ i : ℕ, i < count →
        ((getMonochromatic base count).getD i default).hsl =
          { h := base.hsl.h, s := base.hsl.s,
            l := jround (10 + 80 / ((count : ℚ) - 1) * (i : ℚ)) }) ∧
      ((getMonochromatic base count).getD 0 default).hsl.l = 10 ∧
      ((getMonochromatic base count).getD (count - 1) default).hsl.l = 90 ∧
      (count = 5 →
        (getMonochromatic base count).map (fun c => c.hsl.l) = [10, 30, 50, 70, 90]) := by
  have hcast : (3 : ℚ) ≤ (count : ℚ) := by exact_mod_cast h3
  have hne : ((count : ℚ) - 1) ≠ 0 := by linarith
  refine ⟨getMonochromatic_length base count,
    fun i hi => getMonochromatic_hsl base count hi, ?_, ?_, ?_⟩
  · rw [getMonochromatic_hsl base count (by omega)]
    have h0 : 10 + 80 / ((count : ℚ) - 1) * ((0 : ℕ) : ℚ) = ((10 : ℤ) : ℚ) := by
      push_cast
      ring
    simp only [h0, jround_intCast]
  · rw [getMonochromatic_hsl base count (by omega)]
    have h1 : 10 + 80 / ((count : ℚ) - 1) * ((count - 1 : ℕ) : ℚ) = ((90 : ℤ) : ℚ) := by
      rw [Nat.cast_sub (by omega)]
      push_cast
      field_simp
      ring
    simp only [h1, jround_intCast]
  · rintro rfl
    have hmap := getMonochromatic_map_hsl base 5
    have hrange : List.range 5 = [0, 1, 2, 3, 4] := by decide
    rw [hrange] at hmap
    have hll : (getMonochromatic base 5).map (fun c => c.hsl.l) =
        ((getMonochromatic base 5).map (fun c => c.hsl)).map (fun x => x.l) := by
      rw [List.map_map]
      rfl
    rw [hll, hmap]
    simp only [List.map_cons, List.map_nil]
    unfold jround
    norm_num

theorem C7_monochromatic_steps_witness :
    (3 ≤ 5 ∧ 5 ≤ 10) ∧
      (getMonochromatic ⟨['#', 'F', 'F', '0', '0', '0', '0'], ⟨255, 0, 0⟩, ⟨0, 100, 50⟩, none⟩
          5).map (fun c => c.hsl.l) = [10, 30, 50, 70, 90] :=
  ⟨⟨by norm_num, by norm_num⟩,
    (C7_monochromatic_steps ⟨['#', 'F', 'F', '0', '0', '0', '0'], ⟨255, 0, 0⟩, ⟨0, 100, 50⟩, none⟩
      5 (by norm_num) (by norm_num)).2.2.2.2 rfl⟩

/-! ### Claim C8: color naming -/

/-- C8: `getColorName` on a color with saturation < 10 returns only the
lightness band name (no modifier); otherwise it returns the hue band name
behind exactly the claimed first-match-wins modifier. -/
theorem C8_naming_structure (c : ColorInfo) :
    (c.hsl.s < 10 → getColorName c = lightnessNameOf c.hsl.l) ∧
      (10 ≤ c.hsl.s →
        getColorName c = pfxSpec c.hsl.s c.hsl.l ++ hueNameOf c.hsl.h) := by
  constructor
  · intro hs
    simp only [getColorName, lightnessNameOf]
    rw [if_pos hs]
  · intro hs
    simp only [getColorName, pfxSpec, hueNameOf]
    rw [if_neg (by omega)]

/-- C8 witness: `hsl(0,0,50)` is named `"Gray"` and `hsl(0,100,50)` is
named `"Vivid Red"`. -/
theorem C8_naming_structure_witness :
    getColorName ⟨['#', '8', '0', '8', '0', '8', '0'], ⟨128, 128, 128⟩, ⟨0, 0, 50⟩, none⟩ =
        "Gray" ∧
      getColorName ⟨['#', 'F', 'F', '0', '0', '0', '0'], ⟨255, 0, 0⟩, ⟨0, 100, 50⟩, none⟩ =
        "Vivid Red" := by
  constructor
  · rw [(C8_naming_structure _).1 (by decide)]
    decide
  · rw [(C8_naming_structure _).2 (by decide)]
    decide

/-! ### Claim C2: HEX/RGB round trip -/

set_option maxRecDepth 40000 in
theorem hexPair_facts : ∀ n : ℕ, n < 256 →
    (hexPair n).length = 2 ∧ parseIntHex (hexPair n) = some (n : ℤ) ∧
      (hexPair n).all isUpperHexCh = true := by
  decide

theorem jsToUpperChar_hash : jsToUpperChar '#' = '#' := by decide

theorem toHexJS_nonneg {n : ℤ} (h0 : 0 ≤ n) : toHexJS n = natToHex n.toNat := by
  unfold toHexJS
  rw [if_neg (by omega)]

theorem rgbToHex_eq_hexPair {x y z : ℤ} (hx0 : 0 ≤ x) (hy0 : 0 ≤ y) (hz0 : 0 ≤ z) :
    rgbToHex ⟨x, y, z⟩ = '#' :: (hexPair x.toNat ++ hexPair y.toNat ++ hexPair z.toNat) := by
  unfold rgbToHex jsToUpper hexPair
  rw [show (RGB.mk x y z).r = x from rfl, show (RGB.mk x y z).g = y from rfl,
    show (RGB.mk x y z).b = z from rfl, toHexJS_nonneg hx0, toHexJS_nonneg hy0,
    toHexJS_nonneg hz0]
  simp only [List.map_cons, List.map_append, jsToUpperChar_hash, jsToUpper]

theorem hexToRgb_of_pairs {a b c : List Char} (ha : a.length = 2) (hb : b.length = 2)
    (hc : c.length = 2) :
    hexToRgb ('#' :: (a ++ b ++ c)) =
      { r := parseIntHex a, g := parseIntHex b, b := parseIntHex c } := by
  obtain ⟨a1, a2, rfl⟩ := List.length_eq_two.mp ha
  obtain ⟨b1, b2, rfl⟩ := List.length_eq_two.mp hb
  obtain ⟨c1, c2, rfl⟩ := List.length_eq_two.mp hc
  rfl

theorem hexToRgb_rgbToHex {x y z : ℤ} (hx0 : 0 ≤ x) (hx1 : x ≤ 255) (hy0 : 0 ≤ y)
    (hy1 : y ≤ 255) (hz0 : 0 ≤ z) (hz1 : z ≤ 255) :
    hexToRgb (rgbToHex ⟨x, y, z⟩) = rgbnOf ⟨x, y, z⟩ := by
  obtain ⟨la, pa, _⟩ := hexPair_facts x.toNat (by omega)
  obtain ⟨lb, pb, _⟩ := hexPair_facts y.toNat (by omega)
  obtain ⟨lc, pc, _⟩ := hexPair_facts z.toNat (by omega)
  rw [rgbToHex_eq_hexPair hx0 hy0 hz0, hexToRgb_of_pairs la lb lc, pa, pb, pc]
  unfold rgbnOf
  rw [Int.toNat_of_nonneg hx0, Int.toNat_of_nonneg hy0, Int.toNat_of_nonneg hz0]

/-- C2: for every RGB triple of integers in [0,255], converting to hex with
`rgbToHex` and back with `hexToRgb` returns exactly the original channels
(as `NaN`-free parsed channels). -/
theorem C2_hex_rgb_roundtrip (rgb : RGB) (hr : 0 ≤ rgb.r ∧ rgb.r ≤ 255)
    (hg : 0 ≤ rgb.g ∧ rgb.g ≤ 255) (hb : 0 ≤ rgb.b ∧ rgb.b ≤ 255) :
    hexToRgb (rgbToHex rgb) = rgbnOf rgb := by
  obtain ⟨x, y, z⟩ := rgb
  exact hexToRgb_rgbToHex hr.1 hr.2 hg.1 hg.2 hb.1 hb.2

/-- C2 witness at the triple (123, 45, 200). -/
theorem C2_hex_rgb_roundtrip_witness :
    ((0 : ℤ) ≤ 123 ∧ (123 : ℤ) ≤ 255) ∧ ((0 : ℤ) ≤ 45 ∧ (45 : ℤ) ≤ 255) ∧
      ((0 : ℤ) ≤ 200 ∧ (200 : ℤ) ≤ 255) ∧
      hexToRgb (rgbToHex ⟨123, 45, 200⟩) = rgbnOf ⟨123, 45, 200⟩ :=
  ⟨by norm_num, by norm_num, by norm_num,
    C2_hex_rgb_roundtrip ⟨123, 45, 200⟩ (by norm_num) (by norm_num) (by norm_num)⟩

/-! ### String/matcher lemmas -/

theorem isSpaceCh_of_digit {c : Char} (h : isDigitCh c = true) : isSpaceCh c = false := by
  simp only [isDigitCh, Bool.and_eq_true, decide_eq_true_eq] at h
  simp only [isSpaceCh, Bool.or_eq_false_iff, decide_eq_false_iff_not]
  omega

theorem takeWhile_append_of_all {p : Char → Bool} {ds rest : List Char}
    (hds : ∀ c ∈ ds, p c = true)
    (hrest : rest = [] ∨ ∃ e t, rest = e :: t ∧ p e = false) :
    (ds ++ rest).takeWhile p = ds ∧ (ds ++ rest).dropWhile p = rest := by
  induction ds with
  | nil =>
    simp only [List.nil_append]
    rcases hrest with rfl | ⟨e, t, rfl, he⟩
    · exact ⟨rfl, rfl⟩
    · rw [List.takeWhile_cons, List.dropWhile_cons, he]
      exact ⟨by simp, by simp⟩
  | cons d ds2 ih =>
    have hd : p d = true := hds d (by simp)
    obtain ⟨iht, ihd⟩ := ih (fun c hc => hds c (by simp [hc]))
    rw [List.cons_append, List.takeWhile_cons, List.dropWhile_cons, hd]
    exact ⟨by simp [iht], by simp [ihd]⟩

theorem matchDigits_append {ds rest : List Char} (hne : ds ≠ [])
    (hds : ∀ c ∈ ds, isDigitCh c = true)
    (hrest : rest = [] ∨ ∃ e t, rest = e :: t ∧ isDigitCh e = false) :
    matchDigits (ds ++ rest) = some (ds, rest) := by
  obtain ⟨ht, hd⟩ := takeWhile_append_of_all hds hrest
  unfold matchDigits
  rw [ht, hd]
  simp [hne]

theorem matchLit_self (c : Char) (t : List Char) : matchLit c (c :: t) = some t := by
  simp [matchLit]

theorem dropWhile_space_cons_digit {d : Char} (hd : isDigitCh d = true) (t : List Char) :
    (d :: t).dropWhile isSpaceCh = d :: t := by
  rw [List.dropWhile_cons, isSpaceCh_of_digit hd]
  simp

theorem trimL_sandwich {c e : Char} {xs : List Char} (hc : isSpaceCh c = false)
    (he : isSpaceCh e = false) : trimL (c :: (xs ++ [e])) = c :: (xs ++ [e]) := by
  unfold trimL
  have h1 : (c :: (xs ++ [e])).dropWhile isSpaceCh = c :: (xs ++ [e]) := by
    rw [List.dropWhile_cons, hc]
    simp
  rw [h1]
  have h2 : (c :: (xs ++ [e])).reverse = e :: (xs.reverse ++ [c]) := by
    rw [show c :: (xs ++ [e]) = (c :: xs) ++ [e] from rfl, List.reverse_append]
    simp
  rw [h2, List.dropWhile_cons, he]
  simp only [Bool.false_eq_true, if_false]
  rw [← h2, List.reverse_reverse]

theorem dropWhile_space_space (xs : List Char) :
    (' ' :: xs).dropWhile isSpaceCh = xs.dropWhile isSpaceCh := by
  rw [List.dropWhile_cons, if_pos (show isSpaceCh ' ' = true from by decide)]

theorem matchRgbAt_canonical {d1 d2 d3 : List Char}
    (h1n : d1 ≠ []) (h1 : ∀ c ∈ d1, isDigitCh c = true)
    (h2n : d2 ≠ []) (h2 : ∀ c ∈ d2, isDigitCh c = true)
    (h3n : d3 ≠ []) (h3 : ∀ c ∈ d3, isDigitCh c = true) :
    matchRgbAt
        ('r' :: 'g' :: 'b' :: '(' ::
          (d1 ++ ',' :: ' ' :: (d2 ++ ',' :: ' ' :: (d3 ++ [')'])))) =
      some (d1, d2, d3) := by
  obtain ⟨e2, t2, rfl⟩ := List.exists_cons_of_ne_nil h2n
  obtain ⟨e3, t3, rfl⟩ := List.exists_cons_of_ne_nil h3n
  have he2 : isDigitCh e2 = true := h2 e2 (by simp)
  have he3 : isDigitCh e3 = true := h3 e3 (by simp)
  have md1 := @matchDigits_append d1 (',' :: ' ' :: (e2 :: t2 ++ ',' :: ' ' :: (e3 :: t3 ++ [')']))) h1n h1 (Or.inr ⟨',', _, rfl, by decide⟩)
  have md2 := @matchDigits_append (e2 :: t2) (',' :: ' ' :: (e3 :: t3 ++ [')'])) h2n h2 (Or.inr ⟨',', _, rfl, by decide⟩)
  have md3 := @matchDigits_append (e3 :: t3) [')'] h3n h3 (Or.inr ⟨')', _, rfl, by decide⟩)
  simp only [List.cons_append] at md1 md2 md3 ⊢
  unfold matchRgbAt
  simp only [Option.bind_eq_bind, matchLit_self, Option.some_bind, md1,
    dropWhile_space_space, dropWhile_space_cons_digit he2, md2,
    dropWhile_space_cons_digit he3, md3]
  rfl

theorem searchRgb_cons {c : Char} {t : List Char} {res : List Char × List Char × List Char}
    (h : matchRgbAt (c :: t) = some res) : searchRgb (c :: t) = some res := by
  unfold searchRgb
  rw [h]

theorem searchHsl_cons {c : Char} {t : List Char} {res : List Char × List Char × List Char}
    (h : matchHslAt (c :: t) = some res) : searchHsl (c :: t) = some res := by
  unfold searchHsl
  rw [h]

/-- Evaluation of the `rgb(...)` branch of `parseColor`, conditional only on
which pattern fires on the trimmed input. -/
theorem parseColorL_rgb_branch {cs d1 d2 d3 : List Char}
    (hhash : ¬((trimL cs).head? = some '#'))
    (hsearch : searchRgb (trimL cs) = some (d1, d2, d3)) :
    parseColorL cs =
      .ok { hex := rgbToHex ⟨parseIntDec d1, parseIntDec d2, parseIntDec d3⟩,
            rgb := rgbnOf ⟨parseIntDec d1, parseIntDec d2, parseIntDec d3⟩,
            hsl := hslnOf (rgbToHsl ⟨parseIntDec d1, parseIntDec d2, parseIntDec d3⟩) } := by
  unfold parseColorL parseColorFuel
  rw [if_neg hhash, hsearch]

/-- The canonical `rgb(a, b, c)` input shape, with digit captures. -/
theorem parseColorL_rgb_canonical {d1 d2 d3 : List Char}
    (h1n : d1 ≠ []) (h1 : ∀ c ∈ d1, isDigitCh c = true)
    (h2n : d2 ≠ []) (h2 : ∀ c ∈ d2, isDigitCh c = true)
    (h3n : d3 ≠ []) (h3 : ∀ c ∈ d3, isDigitCh c = true) :
    parseColorL
        ('r' :: 'g' :: 'b' :: '(' ::
          (d1 ++ ',' :: ' ' :: (d2 ++ ',' :: ' ' :: (d3 ++ [')'])))) =
      .ok { hex := rgbToHex ⟨parseIntDec d1, parseIntDec d2, parseIntDec d3⟩,
            rgb := rgbnOf ⟨parseIntDec d1, parseIntDec d2, parseIntDec d3⟩,
            hsl := hslnOf (rgbToHsl ⟨parseIntDec d1, parseIntDec d2, parseIntDec d3⟩) } := by
  have hshape : 'r' :: 'g' :: 'b' :: '(' ::
        (d1 ++ ',' :: ' ' :: (d2 ++ ',' :: ' ' :: (d3 ++ [')']))) =
      'r' :: (('g' :: 'b' :: '(' :: (d1 ++ ',' :: ' ' :: (d2 ++ ',' :: ' ' :: d3))) ++ [')']) := by
    simp [List.cons_append, List.append_assoc]
  have htrim : trimL ('r' :: 'g' :: 'b' :: '(' ::
        (d1 ++ ',' :: ' ' :: (d2 ++ ',' :: ' ' :: (d3 ++ [')'])))) =
      'r' :: 'g' :: 'b' :: '(' ::
        (d1 ++ ',' :: ' ' :: (d2 ++ ',' :: ' ' :: (d3 ++ [')']))) := by
    rw [hshape]
    exact trimL_sandwich (by decide) (by decide)
  apply parseColorL_rgb_branch
  · rw [htrim, List.head?_cons]
    decide
  · rw [htrim]
    exact searchRgb_cons (matchRgbAt_canonical h1n h1 h2n h2 h3n h3)

/-- C10: `parseColor` performs no range validation on the numbers of an
`rgb(r, g, b)` input: for all nonempty digit strings `d1`, `d2`, `d3` —
however large their values — parsing succeeds and the returned `rgb` field
carries exactly the parsed values. -/
theorem C10_rgb_no_range_validation (d1 d2 d3 : List Char)
    (h1n : d1 ≠ []) (h1 : ∀ c ∈ d1, isDigitCh c = true)
    (h2n : d2 ≠ []) (h2 : ∀ c ∈ d2, isDigitCh c = true)
    (h3n : d3 ≠ []) (h3 : ∀ c ∈ d3, isDigitCh c = true) :
    ∃ info : ColorInfoN,
      parseColorL
          ('r' :: 'g' :: 'b' :: '(' ::
            (d1 ++ ',' :: ' ' :: (d2 ++ ',' :: ' ' :: (d3 ++ [')'])))) = .ok info ∧
        info.rgb = rgbnOf ⟨(digitsVal d1 : ℤ), (digitsVal d2 : ℤ), (digitsVal d3 : ℤ)⟩ :=
  ⟨_, parseColorL_rgb_canonical h1n h1 h2n h2 h3n h3, rfl⟩

/-- C10 witness: `rgb(999, 0, 0)` parses successfully and carries the
out-of-range channel 999 unchanged. -/
theorem C10_rgb_no_range_validation_witness :
    ∃ info : ColorInfoN,
      parseColor "rgb(999, 0, 0)" = .ok info ∧ info.rgb = rgbnOf ⟨999, 0, 0⟩ := by
  obtain ⟨info, hok, hrgb⟩ :=
    C10_rgb_no_range_validation ['9', '9', '9'] ['0'] ['0'] (by decide) (by decide)
      (by decide) (by decide) (by decide) (by decide)
  refine ⟨info, ?_, ?_⟩
  · rw [show parseColor "rgb(999, 0, 0)" = parseColorL ("rgb(999, 0, 0)".data) from rfl,
      show ("rgb(999, 0, 0)".data) =
        ('r' :: 'g' :: 'b' :: '(' ::
          (['9', '9', '9'] ++ ',' :: ' ' :: (['0'] ++ ',' :: ' ' :: (['0'] ++ [')'])))) from
        by decide]
    exact hok
  · rw [hrgb]
    decide

/-! ### Concrete conversion evaluations -/

theorem rgbToHsl_red : rgbToHsl ⟨255, 0, 0⟩ = ⟨0, 100, 50⟩ := by
  unfold rgbToHsl
  norm_num [jround, max_def, min_def]

theorem hslToRgb_red : hslToRgb ⟨0, 100, 50⟩ = ⟨255, 0, 0⟩ := by
  unfold hslToRgb hue2rgb
  norm_num [jround]

/-! ### The remaining `parseColor` branches -/

/-- Evaluation of the `#` branch of `parseColor` (any fuel). -/
theorem parseColorFuel_hash {n : ℕ} {cs : List Char} (h : (trimL cs).head? = some '#') :
    parseColorFuel (n + 1) cs =
      .ok { hex := jsToUpper (trimL cs), rgb := hexToRgb (trimL cs),
            hsl := rgbToHslN (hexToRgb (trimL cs)) } := by
  unfold parseColorFuel
  rw [if_pos h]

/-- Evaluation of the `#` branch of `parseColor`. -/
theorem parseColorL_hash_branch {cs : List Char} (h : (trimL cs).head? = some '#') :
    parseColorL cs =
      .ok { hex := jsToUpper (trimL cs), rgb := hexToRgb (trimL cs),
            hsl := rgbToHslN (hexToRgb (trimL cs)) } :=
  @parseColorFuel_hash 1 cs h

/-- Evaluation of the `hsl(...)` branch of `parseColor`. -/
theorem parseColorL_hsl_branch {cs e1 e2 e3 : List Char}
    (h1 : ¬((trimL cs).head? = some '#'))
    (h2 : searchRgb (trimL cs) = none)
    (h3 : searchHsl (trimL cs) = some (e1, e2, e3)) :
    parseColorL cs =
      .ok { hex := rgbToHex (hslToRgb ⟨parseIntDec e1, parseIntDec e2, parseIntDec e3⟩),
            rgb := rgbnOf (hslToRgb ⟨parseIntDec e1, parseIntDec e2, parseIntDec e3⟩),
            hsl := hslnOf ⟨parseIntDec e1, parseIntDec e2, parseIntDec e3⟩ } := by
  unfold parseColorL parseColorFuel
  rw [if_neg h1, h2, h3]

theorem isSpaceCh_of_isHexCh {c : Char} (h : isHexCh c = true) : isSpaceCh c = false := by
  simp only [isHexCh, Bool.or_eq_true, Bool.and_eq_true, decide_eq_true_eq] at h
  simp only [isSpaceCh, Bool.or_eq_false_iff, decide_eq_false_iff_not]
  omega

/-- A string passing the bare-hex test is unchanged by prefixing `#` and
trimming. -/
theorem trimL_hash_hex6 {X : List Char} (h : isHex6 X = true) :
    trimL ('#' :: X) = '#' :: X := by
  have hne : X ≠ [] := by
    intro hempty
    rw [hempty] at h
    exact absurd h (by decide)
  have hall : ∀ c ∈ X, isHexCh c = true := by
    have := (Bool.and_eq_true _ _).mp h
    exact fun c hc => List.all_eq_true.mp this.2 c hc
  have hX : X.dropLast ++ [X.getLast hne] = X := List.dropLast_append_getLast hne
  rw [← hX]
  exact trimL_sandwich (by decide)
    (isSpaceCh_of_isHexCh (hall _ (List.getLast_mem hne)))

/-- Evaluation of the bare-hex retry branch of `parseColor`. -/
theorem parseColorL_hex6_branch {cs : List Char}
    (h1 : ¬((trimL cs).head? = some '#'))
    (h2 : searchRgb (trimL cs) = none) (h3 : searchHsl (trimL cs) = none)
    (h4 : isHex6 (trimL cs) = true) :
    parseColorL cs =
      .ok { hex := jsToUpper ('#' :: trimL cs), rgb := hexToRgb ('#' :: trimL cs),
            hsl := rgbToHslN (hexToRgb ('#' :: trimL cs)) } := by
  have hstep : parseColorL cs = parseColorFuel 1 ('#' :: trimL cs) := by
    conv_lhs => unfold parseColorL parseColorFuel
    rw [if_neg h1, h2, h3, if_pos h4]
  rw [hstep, @parseColorFuel_hash 0 ('#' :: trimL cs) (by rw [trimL_hash_hex6 h4]; rfl),
    trimL_hash_hex6 h4]

/-- The error case of `parseColor`: all four patterns miss. -/
theorem parseColorL_error_branch {cs : List Char}
    (h1 : ¬((trimL cs).head? = some '#'))
    (h2 : searchRgb (trimL cs) = none) (h3 : searchHsl (trimL cs) = none)
    (h4 : isHex6 (trimL cs) = false) :
    parseColorL cs = .error invalidColorMsg := by
  unfold parseColorL parseColorFuel
  rw [if_neg h1, h2, h3, h4]
  simp

/-! ### Claim C1: parser acceptance of the four canonical red inputs -/

/-- C1: the four inputs `#FF0000`, `FF0000`, `rgb(255, 0, 0)` and
`hsl(0, 100%, 50%)` all parse successfully to the identical `ColorInfo`
with hex `#FF0000`, rgb `(255,0,0)` and hsl `(0,100,50)`. -/
theorem C1_parser_acceptance :
    parseColor "#FF0000" =
        .ok { hex := ['#', 'F', 'F', '0', '0', '0', '0'], rgb := ⟨some 255, some 0, some 0⟩,
              hsl := ⟨some 0, some 100, some 50⟩ } ∧
      parseColor "FF0000" =
        .ok { hex := ['#', 'F', 'F', '0', '0', '0', '0'], rgb := ⟨some 255, some 0, some 0⟩,
              hsl := ⟨some 0, some 100, some 50⟩ } ∧
      parseColor "rgb(255, 0, 0)" =
        .ok { hex := ['#', 'F', 'F', '0', '0', '0', '0'], rgb := ⟨some 255, some 0, some 0⟩,
              hsl := ⟨some 0, some 100, some 50⟩ } ∧
      parseColor "hsl(0, 100%, 50%)" =
        .ok { hex := ['#', 'F', 'F', '0', '0', '0', '0'], rgb := ⟨some 255, some 0, some 0⟩,
              hsl := ⟨some 0, some 100, some 50⟩ } := by
  refine ⟨?_, ?_, ?_, ?_⟩
  · rw [show parseColor "#FF0000" = parseColorL ("#FF0000".data) from rfl,
      parseColorL_hash_branch (by decide)]
    rw [show trimL ("#FF0000".data) = "#FF0000".data from by decide]
    rw [show hexToRgb ("#FF0000".data) = rgbnOf ⟨255, 0, 0⟩ from by decide]
    rw [show rgbToHslN (rgbnOf ⟨255, 0, 0⟩) = hslnOf (rgbToHsl ⟨255, 0, 0⟩) from rfl,
      rgbToHsl_red]
    rfl
  · rw [show parseColor "FF0000" = parseColorL ("FF0000".data) from rfl,
      parseColorL_hex6_branch (by decide) (by decide) (by decide) (by decide)]
    rw [show trimL ("FF0000".data) = "FF0000".data from by decide]
    rw [show hexToRgb ('#' :: "FF0000".data) = rgbnOf ⟨255, 0, 0⟩ from by decide]
    rw [show rgbToHslN (rgbnOf ⟨255, 0, 0⟩) = hslnOf (rgbToHsl ⟨255, 0, 0⟩) from rfl,
      rgbToHsl_red]
    rfl
  · rw [show parseColor "rgb(255, 0, 0)" = parseColorL ("rgb(255, 0, 0)".data) from rfl,
      @parseColorL_rgb_branch ("rgb(255, 0, 0)".data) ['2', '5', '5'] ['0'] ['0']
        (by decide) (by decide)]
    rw [show parseIntDec ['2', '5', '5'] = 255 from by decide,
      show parseIntDec ['0'] = 0 from by decide, rgbToHsl_red]
    rfl
  · rw [show parseColor "hsl(0, 100%, 50%)" = parseColorL ("hsl(0, 100%, 50%)".data) from rfl,
      @parseColorL_hsl_branch ("hsl(0, 100%, 50%)".data) ['0'] ['1', '0', '0'] ['5', '0']
        (by decide) (by decide) (by decide)]
    rw [show parseIntDec ['0'] = 0 from by decide,
      show parseIntDec ['1', '0', '0'] = 100 from by decide,
      show parseIntDec ['5', '0'] = 50 from by decide, hslToRgb_red]
    rw [show rgbToHex ⟨255, 0, 0⟩ = ['#', 'F', 'F', '0', '0', '0', '0'] from by decide]
    rfl

/-! ### Claim C5: error behaviour of `parseColor` -/

/-- C5 counterexample: a `#`-prefixed input with non-hex characters
(`#GG0000`), and one whose length after `#` is neither 3 nor 6 (`#1234`),
do NOT fail with the invalid-format error — the `#` branch performs no
validation and returns a `ColorInfo` whose unparseable channels are `NaN`. -/
theorem C5_hash_never_fails_cex :
    parseColor "#GG0000" =
        .ok { hex := "#GG0000".data, rgb := ⟨none, some 0, some 0⟩,
              hsl := ⟨some 0, none, none⟩ } ∧
      parseColor "#1234" =
        .ok { hex := "#1234".data, rgb := ⟨some 18, some 52, none⟩,
              hsl := ⟨some 0, none, none⟩ } := by
  constructor
  · rw [show parseColor "#GG0000" = parseColorL ("#GG0000".data) from rfl,
      parseColorL_hash_branch (by decide)]
    rfl
  · rw [show parseColor "#1234" = parseColorL ("#1234".data) from rfl,
      parseColorL_hash_branch (by decide)]
    rfl

/-- C5 amended: `parseColor` fails with the invalid-format error exactly
when the trimmed input does not start with `#`, matches neither the
`rgb(...)` nor the `hsl(...)` pattern, and fails the bare 6-hex-digit
test; in particular `#`-prefixed inputs never fail (malformed hex yields
`NaN` channels instead), and `parseColor("notacolor")` does fail. -/
theorem C5_invalid_format_characterization (cs : List Char) :
    (parseColorL cs = .error invalidColorMsg ↔
      ¬((trimL cs).head? = some '#') ∧ searchRgb (trimL cs) = none ∧
        searchHsl (trimL cs) = none ∧ isHex6 (trimL cs) = false) ∧
      parseColor "notacolor" = .error invalidColorMsg := by
  constructor
  · constructor
    · intro herr
      by_cases h1 : (trimL cs).head? = some '#'
      · rw [parseColorL_hash_branch h1] at herr
        exact absurd herr (by simp)
      · cases h2 : searchRgb (trimL cs) with
        | some res =>
          obtain ⟨a, b, c⟩ := res
          rw [parseColorL_rgb_branch h1 h2] at herr
          exact absurd herr (by simp)
        | none =>
          cases h3 : searchHsl (trimL cs) with
          | some res =>
            obtain ⟨a, b, c⟩ := res
            rw [parseColorL_hsl_branch h1 h2 h3] at herr
            exact absurd herr (by simp)
          | none =>
            cases h4 : isHex6 (trimL cs) with
            | true =>
              rw [parseColorL_hex6_branch h1 h2 h3 h4] at herr
              exact absurd herr (by simp)
            | false => exact ⟨h1, rfl, rfl, rfl⟩
    · rintro ⟨h1, h2, h3, h4⟩
      exact parseColorL_error_branch h1 h2 h3 h4
  · rw [show parseColor "notacolor" = parseColorL ("notacolor".data) from rfl]
    exact parseColorL_error_branch (by decide) (by decide) (by decide) (by decide)

/-! ### Claim C9: ranges of `rgbToHsl` -/

theorem rgbToHsl_h_bounds {R G B : ℤ} (hr : 0 ≤ R ∧ R ≤ 255) (hg : 0 ≤ G ∧ G ≤ 255)
    (hb : 0 ≤ B ∧ B ≤ 255) :
    0 ≤ (rgbToHsl ⟨R, G, B⟩).h ∧ (rgbToHsl ⟨R, G, B⟩).h ≤ 360 := by
  unfold rgbToHsl
  dsimp only
  have hx0 : (0 : ℚ) ≤ (R : ℚ) / 255 := by
    apply div_nonneg _ (by norm_num)
    exact_mod_cast hr.1
  have hx1 : (R : ℚ) / 255 ≤ 1 := by
    rw [div_le_one (by norm_num)]
    exact_mod_cast hr.2
  have hy0 : (0 : ℚ) ≤ (G : ℚ) / 255 := by
    apply div_nonneg _ (by norm_num)
    exact_mod_cast hg.1
  have hy1 : (G : ℚ) / 255 ≤ 1 := by
    rw [div_le_one (by norm_num)]
    exact_mod_cast hg.2
  have hz0 : (0 : ℚ) ≤ (B : ℚ) / 255 := by
    apply div_nonneg _ (by norm_num)
    exact_mod_cast hb.1
  have hz1 : (B : ℚ) / 255 ≤ 1 := by
    rw [div_le_one (by norm_num)]
    exact_mod_cast hb.2
  set x : ℚ := (R : ℚ) / 255 with hxdef
  set y : ℚ := (G : ℚ) / 255 with hydef
  set z : ℚ := (B : ℚ) / 255 with hzdef
  have hyMX : y ≤ max x (max y z) := le_trans (le_max_left y z) (le_max_right x (max y z))
  have hzMX : z ≤ max x (max y z) := le_trans (le_max_right y z) (le_max_right x (max y z))
  have hxMX : x ≤ max x (max y z) := le_max_left x (max y z)
  have hyMN : min x (min y z) ≤ y := le_trans (min_le_right x (min y z)) (min_le_left y z)
  have hzMN : min x (min y z) ≤ z := le_trans (min_le_right x (min y z)) (min_le_right y z)
  have hxMN : min x (min y z) ≤ x := min_le_left x (min y z)
  set MX : ℚ := max x (max y z) with hMXdef
  set MN : ℚ := min x (min y z) with hMNdef
  have hMNMX : MN ≤ MX := le_trans hxMN hxMX
  have hd0 : (0 : ℚ) ≤ MX - MN := sub_nonneg.mpr hMNMX
  have key : ∀ u v : ℚ, MN ≤ u → u ≤ MX → MN ≤ v → v ≤ MX →
      -1 ≤ (u - v) / (MX - MN) ∧ (u - v) / (MX - MN) ≤ 1 := by
    intro u v hu1 hu2 hv1 hv2
    rcases eq_or_lt_of_le hd0 with heq | hlt
    · rw [← heq, div_zero]
      norm_num
    · constructor
      · rw [le_div_iff₀ hlt]
        linarith
      · rw [div_le_iff₀ hlt]
        linarith
  have k1 := key y z hyMN hyMX hzMN hzMX
  have k2 := key z x hzMN hzMX hxMN hxMX
  have k3 := key x y hxMN hxMX hyMN hyMX
  split_ifs with h1 h2 h3 h4 h5
  · have hdpos : (0 : ℚ) < MX - MN := lt_of_le_of_ne hd0 (Ne.symm h1)
    have hneg : (y - z) / (MX - MN) ≤ 0 := by
      rw [div_le_iff₀ hdpos]
      linarith
    constructor
    · exact le_jround (by push_cast; linarith [k1.1])
    · exact jround_le (by push_cast; linarith [hneg])
  · have hpos : 0 ≤ (y - z) / (MX - MN) := div_nonneg (by linarith [not_lt.mp h3]) hd0
    constructor
    · exact le_jround (by push_cast; linarith [hpos])
    · exact jround_le (by push_cast; linarith [k1.2])
  · constructor
    · exact le_jround (by push_cast; linarith [k2.1])
    · exact jround_le (by push_cast; linarith [k2.2])
  · constructor
    · exact le_jround (by push_cast; linarith [k3.1])
    · exact jround_le (by push_cast; linarith [k3.2])
  · constructor
    · exact le_jround (by push_cast; norm_num)
    · exact jround_le (by push_cast; norm_num)
  · constructor
    · exact le_jround (by push_cast; norm_num)
    · exact jround_le (by push_cast; norm_num)

theorem rgbToHsl_sl_bounds {R G B : ℤ} (hr : 0 ≤ R ∧ R ≤ 255) (hg : 0 ≤ G ∧ G ≤ 255)
    (hb : 0 ≤ B ∧ B ≤ 255) :
    (0 ≤ (rgbToHsl ⟨R, G, B⟩).s ∧ (rgbToHsl ⟨R, G, B⟩).s ≤ 100) ∧
      0 ≤ (rgbToHsl ⟨R, G, B⟩).l ∧ (rgbToHsl ⟨R, G, B⟩).l ≤ 100 := by
  unfold rgbToHsl
  dsimp only
  have hx0 : (0 : ℚ) ≤ (R : ℚ) / 255 := by
    apply div_nonneg _ (by norm_num)
    exact_mod_cast hr.1
  have hx1 : (R : ℚ) / 255 ≤ 1 := by
    rw [div_le_one (by norm_num)]
    exact_mod_cast hr.2
  have hy0 : (0 : ℚ) ≤ (G : ℚ) / 255 := by
    apply div_nonneg _ (by norm_num)
    exact_mod_cast hg.1
  have hy1 : (G : ℚ) / 255 ≤ 1 := by
    rw [div_le_one (by norm_num)]
    exact_mod_cast hg.2
  have hz0 : (0 : ℚ) ≤ (B : ℚ) / 255 := by
    apply div_nonneg _ (by norm_num)
    exact_mod_cast hb.1
  have hz1 : (B : ℚ) / 255 ≤ 1 := by
    rw [div_le_one (by norm_num)]
    exact_mod_cast hb.2
  set x : ℚ := (R : ℚ) / 255 with hxdef
  set y : ℚ := (G : ℚ) / 255 with hydef
  set z : ℚ := (B : ℚ) / 255 with hzdef
  set MX : ℚ := max x (max y z) with hMXdef
  set MN : ℚ := min x (min y z) with hMNdef
  have hMX1 : MX ≤ 1 := max_le hx1 (max_le hy1 hz1)
  have hMN0 : (0 : ℚ) ≤ MN := le_min hx0 (le_min hy0 hz0)
  have hMNMX : MN ≤ MX := le_trans (min_le_left x (min y z)) (le_max_left x (max y z))
  have hd0 : (0 : ℚ) ≤ MX - MN := sub_nonneg.mpr hMNMX
  constructor
  · split_ifs with h1 h2
    · have hlt2 : MX + MN < 2 := by
        rcases lt_or_le (MX + MN) 2 with hcase | hcase
        · exact hcase
        · exfalso
          apply h1
          linarith
      constructor
      · apply le_jround
        push_cast
        have hs0 : 0 ≤ (MX - MN) / (2 - MX - MN) := div_nonneg hd0 (by linarith)
        linarith
      · apply jround_le
        push_cast
        have hs1 : (MX - MN) / (2 - MX - MN) ≤ 1 := by
          rw [div_le_one (by linarith)]
          linarith
        linarith
    · have hpos : 0 < MX + MN := by
        rcases lt_or_le 0 (MX + MN) with hcase | hcase
        · exact hcase
        · exfalso
          apply h1
          linarith
      constructor
      · apply le_jround
        push_cast
        have hs0 : 0 ≤ (MX - MN) / (MX + MN) := div_nonneg hd0 (le_of_lt hpos)
        linarith
      · apply jround_le
        push_cast
        have hs1 : (MX - MN) / (MX + MN) ≤ 1 := by
          rw [div_le_one hpos]
          linarith
        linarith
    · constructor
      · exact le_jround (by push_cast; norm_num)
      · exact jround_le (by push_cast; norm_num)
  · constructor
    · apply le_jround
      push_cast
      linarith
    · apply jround_le
      push_cast
      linarith

/-- C9 counterexample: the in-range input rgb(240, 0, 1) yields hue
exactly 360, refuting h ∈ [0,360). -/
theorem C9_hue_reaches_360_cex :
    rgbToHsl ⟨240, 0, 1⟩ = ⟨360, 100, 47⟩ ∧ ¬((rgbToHsl ⟨240, 0, 1⟩).h < 360) := by
  have hval : rgbToHsl ⟨240, 0, 1⟩ = ⟨360, 100, 47⟩ := by
    unfold rgbToHsl
    norm_num [jround, max_def, min_def]
  exact ⟨hval, by rw [hval]; norm_num⟩

/-- C9 (amended: the rounded hue can reach 360 exactly): for every RGB
triple of integers in [0,255], `rgbToHsl` returns integers with
h ∈ [0,360], s ∈ [0,100], l ∈ [0,100]. -/
theorem C9_rgbToHsl_ranges (rgb : RGB) (hr : 0 ≤ rgb.r ∧ rgb.r ≤ 255)
    (hg : 0 ≤ rgb.g ∧ rgb.g ≤ 255) (hb : 0 ≤ rgb.b ∧ rgb.b ≤ 255) :
    (0 ≤ (rgbToHsl rgb).h ∧ (rgbToHsl rgb).h ≤ 360) ∧
      (0 ≤ (rgbToHsl rgb).s ∧ (rgbToHsl rgb).s ≤ 100) ∧
      (0 ≤ (rgbToHsl rgb).l ∧ (rgbToHsl rgb).l ≤ 100) := by
  obtain ⟨R, G, B⟩ := rgb
  obtain ⟨hs, hl⟩ := rgbToHsl_sl_bounds hr hg hb
  exact ⟨rgbToHsl_h_bounds hr hg hb, hs, hl⟩

/-- C9 witness at rgb(240, 0, 1), where the hue bound 360 is attained. -/
theorem C9_rgbToHsl_ranges_witness :
    (0 ≤ (rgbToHsl ⟨240, 0, 1⟩).h ∧ (rgbToHsl ⟨240, 0, 1⟩).h ≤ 360) ∧
      (0 ≤ (rgbToHsl ⟨240, 0, 1⟩).s ∧ (rgbToHsl ⟨240, 0, 1⟩).s ≤ 100) ∧
      (0 ≤ (rgbToHsl ⟨240, 0, 1⟩).l ∧ (rgbToHsl ⟨240, 0, 1⟩).l ≤ 100) :=
  C9_rgbToHsl_ranges ⟨240, 0, 1⟩ (by norm_num) (by norm_num) (by norm_num)

/-! ### Claim C3: HSL→RGB→HSL drift -/

/-- The lightness output of `rgbToHsl` ignores every branch: it is always
the rounded mean of the channel maximum and minimum. -/
theorem rgbToHsl_l_formula (R G B : ℤ) :
    (rgbToHsl ⟨R, G, B⟩).l =
      jround ((max ((R : ℚ) / 255) (max ((G : ℚ) / 255) ((B : ℚ) / 255)) +
        min ((R : ℚ) / 255) (min ((G : ℚ) / 255) ((B : ℚ) / 255))) / 2 * 100) := by
  unfold rgbToHsl
  rfl

theorem max3_eq {a b c M : ℚ} (ha : a ≤ M) (hb : b ≤ M) (hc : c ≤ M)
    (hat : a = M ∨ b = M ∨ c = M) : max a (max b c) = M := by
  apply le_antisymm (max_le ha (max_le hb hc))
  rcases hat with rfl | rfl | rfl
  · exact le_max_left _ _
  · exact le_trans (le_max_left _ _) (le_max_right _ _)
  · exact le_trans (le_max_right _ _) (le_max_right _ _)

theorem min3_eq {a b c M : ℚ} (ha : M ≤ a) (hb : M ≤ b) (hc : M ≤ c)
    (hat : a = M ∨ b = M ∨ c = M) : min a (min b c) = M := by
  apply le_antisymm _ (le_min ha (le_min hb hc))
  rcases hat with rfl | rfl | rfl
  · exact min_le_left _ _
  · exact le_trans (min_le_right _ _) (min_le_left _ _)
  · exact le_trans (min_le_right _ _) (min_le_right _ _)

/-- The rounding-drift core: if `p + q = 2·(l/100)` and `Q`, `P` are the
roundings of `255q`, `255p`, then the recomputed lightness is exactly `l`. -/
theorem l_recovery {p q : ℚ} {l P Q : ℤ} (hpq : p + q = 2 * ((l : ℚ) / 100))
    (hQ : q * 255 - 1 / 2 < (Q : ℚ) ∧ (Q : ℚ) ≤ q * 255 + 1 / 2)
    (hP : p * 255 - 1 / 2 < (P : ℚ) ∧ (P : ℚ) ≤ p * 255 + 1 / 2) :
    jround (((Q : ℚ) / 255 + (P : ℚ) / 255) / 2 * 100) = l := by
  apply jround_eq_of_close
  · have hexp : ((Q : ℚ) / 255 + (P : ℚ) / 255) / 2 * 100 = 10 / 51 * ((Q : ℚ) + (P : ℚ)) := by
      ring
    rw [hexp]
    have hsum : (Q : ℚ) + (P : ℚ) > (q + p) * 255 - 1 := by linarith
    have hqp : (q + p) * 255 = 51 / 10 * (l : ℚ) := by
      rw [show q + p = p + q from by ring, hpq]
      ring
    nlinarith
  · have hexp : ((Q : ℚ) / 255 + (P : ℚ) / 255) / 2 * 100 = 10 / 51 * ((Q : ℚ) + (P : ℚ)) := by
      ring
    rw [hexp]
    have hsum : (Q : ℚ) + (P : ℚ) ≤ (q + p) * 255 + 1 := by linarith
    have hqp : (q + p) * 255 = 51 / 10 * (l : ℚ) := by
      rw [show q + p = p + q from by ring, hpq]
      ring
    nlinarith

theorem hue2rgb_eq_val (p q t0 : ℚ) : hue2rgb p q t0 = hue2rgbVal p q (adjustT t0) := rfl

theorem adjustT_nonneg {t0 : ℚ} (h : -1 ≤ t0) : 0 ≤ adjustT t0 := by
  unfold adjustT
  split_ifs with h1 h2 h3 <;> linarith

theorem adjustT_id {t0 : ℚ} (h1 : 0 ≤ t0) (h2 : t0 ≤ 1) : adjustT t0 = t0 := by
  unfold adjustT
  rw [if_neg (by linarith : ¬(t0 < 0)), if_neg (by linarith : ¬(t0 > 1))]

theorem adjustT_up {t0 : ℚ} (h1 : -1 ≤ t0) (h2 : t0 < 0) : adjustT t0 = t0 + 1 := by
  unfold adjustT
  rw [if_pos h2, if_neg (by linarith : ¬(t0 + 1 > 1))]

theorem adjustT_down {t0 : ℚ} (h1 : 1 < t0) : adjustT t0 = t0 - 1 := by
  unfold adjustT
  rw [if_neg (by linarith : ¬(t0 < 0)), if_pos (by linarith : t0 > 1)]

theorem hue2rgbVal_mem {p q t : ℚ} (hqp : 0 ≤ q - p) (ht : 0 ≤ t) :
    p ≤ hue2rgbVal p q t ∧ hue2rgbVal p q t ≤ q := by
  unfold hue2rgbVal
  split_ifs with h1 h2 h3
  · constructor
    · nlinarith [mul_nonneg hqp ht]
    · nlinarith [mul_nonneg hqp (by linarith : (0 : ℚ) ≤ 1 - 6 * t)]
  · exact ⟨by linarith, le_refl q⟩
  · constructor
    · nlinarith [mul_nonneg hqp (by linarith : (0 : ℚ) ≤ 2 / 3 - t)]
    · nlinarith [mul_nonneg hqp (by linarith : (0 : ℚ) ≤ 1 - (2 / 3 - t) * 6)]
  · exact ⟨le_refl p, by linarith⟩

theorem hue2rgbVal_eq_q {p q t : ℚ} (h1 : 1 / 6 ≤ t) (h2 : t < 1 / 2) :
    hue2rgbVal p q t = q := by
  unfold hue2rgbVal
  rw [if_neg (by linarith), if_pos h2]

theorem hue2rgbVal_eq_p {p q t : ℚ} (h1 : 2 / 3 ≤ t) : hue2rgbVal p q t = p := by
  unfold hue2rgbVal
  rw [if_neg (by linarith), if_neg (by linarith), if_neg (by linarith)]

/-- `hue2rgb` stays between `p` and `q` whenever `t0 ≥ -1`. -/
theorem hue2rgb_mem {p q t0 : ℚ} (hpq : p ≤ q) (h1 : -1 ≤ t0) :
    p ≤ hue2rgb p q t0 ∧ hue2rgb p q t0 ≤ q := by
  rw [hue2rgb_eq_val]
  exact hue2rgbVal_mem (sub_nonneg.mpr hpq) (adjustT_nonneg h1)

theorem hslToRgb_s_zero {h s l : ℤ} (hs : ((s : ℚ) / 100) = 0) :
    hslToRgb ⟨h, s, l⟩ =
      ⟨jround ((l : ℚ) / 100 * 255), jround ((l : ℚ) / 100 * 255),
        jround ((l : ℚ) / 100 * 255)⟩ := by
  unfold hslToRgb
  rw [if_pos hs]

theorem hslToRgb_s_pos {h s l : ℤ} (hs : ¬(((s : ℚ) / 100) = 0)) :
    hslToRgb ⟨h, s, l⟩ =
      ⟨jround (hue2rgb (2 * ((l : ℚ) / 100) - qfun s l) (qfun s l) ((h : ℚ) / 360 + 1 / 3) * 255),
        jround (hue2rgb (2 * ((l : ℚ) / 100) - qfun s l) (qfun s l) ((h : ℚ) / 360) * 255),
        jround (hue2rgb (2 * ((l : ℚ) / 100) - qfun s l) (qfun s l) ((h : ℚ) / 360 - 1 / 3) * 255)⟩ := by
  unfold hslToRgb qfun
  rw [if_neg hs]

/-- In range, the lightness lies below `q`. -/
theorem le_qfun {s l : ℤ} (hs : 0 ≤ s ∧ s ≤ 100) (hl : 0 ≤ l ∧ l ≤ 100) :
    (l : ℚ) / 100 ≤ qfun s l := by
  have hs0 : (0 : ℚ) ≤ (s : ℚ) / 100 := by
    apply div_nonneg _ (by norm_num)
    exact_mod_cast hs.1
  have hl0 : (0 : ℚ) ≤ (l : ℚ) / 100 := by
    apply div_nonneg _ (by norm_num)
    exact_mod_cast hl.1
  have hl1 : (l : ℚ) / 100 ≤ 1 := by
    rw [div_le_one (by norm_num)]
    exact_mod_cast hl.2
  unfold qfun
  split_ifs with hcase
  · nlinarith [mul_nonneg hl0 hs0]
  · nlinarith [mul_nonneg hs0 (by linarith : (0 : ℚ) ≤ 1 - (l : ℚ) / 100)]

/-- The key structural fact: the three `hue2rgb` samples, rounded, recompute
lightness exactly, provided `q` is attained as the maximum sample and `p`
as the minimum. -/
theorem rgbToHsl_l_of_pq {p q t1 t2 t3 : ℚ} {l : ℤ}
    (hpq : p + q = 2 * ((l : ℚ) / 100)) (hle : p ≤ q)
    (m1 : -1 ≤ t1) (m2 : -1 ≤ t2) (m3 : -1 ≤ t3)
    (hatq : hue2rgb p q t1 = q ∨ hue2rgb p q t2 = q ∨ hue2rgb p q t3 = q)
    (hatp : hue2rgb p q t1 = p ∨ hue2rgb p q t2 = p ∨ hue2rgb p q t3 = p) :
    (rgbToHsl ⟨jround (hue2rgb p q t1 * 255), jround (hue2rgb p q t2 * 255),
      jround (hue2rgb p q t3 * 255)⟩).l = l := by
  rw [rgbToHsl_l_formula]
  have mem1 := hue2rgb_mem hle m1
  have mem2 := hue2rgb_mem hle m2
  have mem3 := hue2rgb_mem hle m3
  have bQ := jround_bracket (q * 255)
  have bP := jround_bracket (p * 255)
  have hmono : ∀ u v : ℚ, u ≤ v →
      ((jround (u * 255) : ℚ)) / 255 ≤ ((jround (v * 255) : ℚ)) / 255 := by
    intro u v huv
    have := jround_mono (by nlinarith : u * 255 ≤ v * 255)
    have hc : ((jround (u * 255) : ℚ)) ≤ ((jround (v * 255) : ℚ)) := by exact_mod_cast this
    linarith
  have hmax : max ((jround (hue2rgb p q t1 * 255) : ℚ) / 255)
      (max ((jround (hue2rgb p q t2 * 255) : ℚ) / 255)
        ((jround (hue2rgb p q t3 * 255) : ℚ) / 255)) = (jround (q * 255) : ℚ) / 255 := by
    apply max3_eq (hmono _ _ mem1.2) (hmono _ _ mem2.2) (hmono _ _ mem3.2)
    rcases hatq with he | he | he
    · exact Or.inl (by rw [he])
    · exact Or.inr (Or.inl (by rw [he]))
    · exact Or.inr (Or.inr (by rw [he]))
  have hmin : min ((jround (hue2rgb p q t1 * 255) : ℚ) / 255)
      (min ((jround (hue2rgb p q t2 * 255) : ℚ) / 255)
        ((jround (hue2rgb p q t3 * 255) : ℚ) / 255)) = (jround (p * 255) : ℚ) / 255 := by
    apply min3_eq (hmono _ _ mem1.1) (hmono _ _ mem2.1) (hmono _ _ mem3.1)
    rcases hatp with he | he | he
    · exact Or.inl (by rw [he])
    · exact Or.inr (Or.inl (by rw [he]))
    · exact Or.inr (Or.inr (by rw [he]))
  rw [hmax, hmin]
  exact l_recovery hpq bQ bP

theorem hslToRgb_l_roundtrip_s0 {h s l : ℤ} (hs : ((s : ℚ) / 100) = 0) :
    (rgbToHsl (hslToRgb ⟨h, s, l⟩)).l = l := by
  rw [hslToRgb_s_zero hs, rgbToHsl_l_formula]
  rw [max_self, max_self, min_self, min_self]
  exact @l_recovery ((l : ℚ) / 100) ((l : ℚ) / 100) l (jround ((l : ℚ) / 100 * 255))
    (jround ((l : ℚ) / 100 * 255)) (by ring) (jround_bracket _) (jround_bracket _)

theorem hslToRgb_l_roundtrip_pos {h s l : ℤ} (hs : ¬(((s : ℚ) / 100) = 0))
    (hh : 0 ≤ h ∧ h < 360) (hsr : 0 ≤ s ∧ s ≤ 100) (hl : 0 ≤ l ∧ l ≤ 100) :
    (rgbToHsl (hslToRgb ⟨h, s, l⟩)).l = l := by
  rw [hslToRgb_s_pos hs]
  have hle : 2 * ((l : ℚ) / 100) - qfun s l ≤ qfun s l := by
    have := le_qfun hsr hl
    linarith
  have hpq : (2 * ((l : ℚ) / 100) - qfun s l) + qfun s l = 2 * ((l : ℚ) / 100) := by ring
  have hh0 : (0 : ℚ) ≤ (h : ℚ) / 360 := div_nonneg (by exact_mod_cast hh.1) (by norm_num)
  have hh1 : (h : ℚ) / 360 < 1 := by
    rw [div_lt_one (by norm_num)]
    exact_mod_cast hh.2
  rcases (by omega : h < 60 ∨ 60 ≤ h ∧ h < 120 ∨ 120 ≤ h ∧ h < 180 ∨
      180 ≤ h ∧ h < 240 ∨ 240 ≤ h ∧ h < 300 ∨ 300 ≤ h) with
    hc | hc | hc | hc | hc | hc
  · have hHhi : (h : ℚ) / 360 < 1 / 6 := by
      rw [div_lt_iff₀ (by norm_num)]
      have : (h : ℚ) < 60 := by exact_mod_cast hc
      linarith
    refine rgbToHsl_l_of_pq hpq hle (by linarith) (by linarith) (by linarith) ?_ ?_
    · exact Or.inl (by
        rw [hue2rgb_eq_val, adjustT_id (by linarith) (by linarith),
          hue2rgbVal_eq_q (by linarith) (by linarith)])
    · exact Or.inr (Or.inr (by
        rw [hue2rgb_eq_val, adjustT_up (by linarith) (by linarith),
          hue2rgbVal_eq_p (by linarith)]))
  · have hHlo : (1 : ℚ) / 6 ≤ (h : ℚ) / 360 := by
      rw [le_div_iff₀ (by norm_num)]
      have : (60 : ℚ) ≤ (h : ℚ) := by exact_mod_cast hc.1
      linarith
    have hHhi : (h : ℚ) / 360 < 1 / 3 := by
      rw [div_lt_iff₀ (by norm_num)]
      have : (h : ℚ) < 120 := by exact_mod_cast hc.2
      linarith
    refine rgbToHsl_l_of_pq hpq hle (by linarith) (by linarith) (by linarith) ?_ ?_
    · exact Or.inr (Or.inl (by
        rw [hue2rgb_eq_val, adjustT_id (by linarith) (by linarith),
          hue2rgbVal_eq_q (by linarith) (by linarith)]))
    · exact Or.inr (Or.inr (by
        rw [hue2rgb_eq_val, adjustT_up (by linarith) (by linarith),
          hue2rgbVal_eq_p (by linarith)]))
  · have hHlo : (1 : ℚ) / 3 ≤ (h : ℚ) / 360 := by
      rw [le_div_iff₀ (by norm_num)]
      have : (120 : ℚ) ≤ (h : ℚ) := by exact_mod_cast hc.1
      linarith
    have hHhi : (h : ℚ) / 360 < 1 / 2 := by
      rw [div_lt_iff₀ (by norm_num)]
      have : (h : ℚ) < 180 := by exact_mod_cast hc.2
      linarith
    refine rgbToHsl_l_of_pq hpq hle (by linarith) (by linarith) (by linarith) ?_ ?_
    · exact Or.inr (Or.inl (by
        rw [hue2rgb_eq_val, adjustT_id (by linarith) (by linarith),
          hue2rgbVal_eq_q (by linarith) (by linarith)]))
    · exact Or.inl (by
        rw [hue2rgb_eq_val, adjustT_id (by linarith) (by linarith),
          hue2rgbVal_eq_p (by linarith)])
  · have hHlo : (1 : ℚ) / 2 ≤ (h : ℚ) / 360 := by
      rw [le_div_iff₀ (by norm_num)]
      have : (180 : ℚ) ≤ (h : ℚ) := by exact_mod_cast hc.1
      linarith
    have hHhi : (h : ℚ) / 360 < 2 / 3 := by
      rw [div_lt_iff₀ (by norm_num)]
      have : (h : ℚ) < 240 := by exact_mod_cast hc.2
      linarith
    refine rgbToHsl_l_of_pq hpq hle (by linarith) (by linarith) (by linarith) ?_ ?_
    · exact Or.inr (Or.inr (by
        rw [hue2rgb_eq_val, adjustT_id (by linarith) (by linarith),
          hue2rgbVal_eq_q (by linarith) (by linarith)]))
    · exact Or.inl (by
        rw [hue2rgb_eq_val, adjustT_id (by linarith) (by linarith),
          hue2rgbVal_eq_p (by linarith)])
  · have hHlo : (2 : ℚ) / 3 ≤ (h : ℚ) / 360 := by
      rw [le_div_iff₀ (by norm_num)]
      have : (240 : ℚ) ≤ (h : ℚ) := by exact_mod_cast hc.1
      linarith
    have hHhi : (h : ℚ) / 360 < 5 / 6 := by
      rw [div_lt_iff₀ (by norm_num)]
      have : (h : ℚ) < 300 := by exact_mod_cast hc.2
      linarith
    refine rgbToHsl_l_of_pq hpq hle (by linarith) (by linarith) (by linarith) ?_ ?_
    · exact Or.inr (Or.inr (by
        rw [hue2rgb_eq_val, adjustT_id (by linarith) (by linarith),
          hue2rgbVal_eq_q (by linarith) (by linarith)]))
    · exact Or.inr (Or.inl (by
        rw [hue2rgb_eq_val, adjustT_id (by linarith) (by linarith),
          hue2rgbVal_eq_p (by linarith)]))
  · have hHlo : (5 : ℚ) / 6 ≤ (h : ℚ) / 360 := by
      rw [le_div_iff₀ (by norm_num)]
      have : (300 : ℚ) ≤ (h : ℚ) := by exact_mod_cast hc
      linarith
    refine rgbToHsl_l_of_pq hpq hle (by linarith) (by linarith) (by linarith) ?_ ?_
    · exact Or.inl (by
        rw [hue2rgb_eq_val, adjustT_down (by linarith),
          hue2rgbVal_eq_q (by linarith) (by linarith)])
    · exact Or.inr (Or.inl (by
        rw [hue2rgb_eq_val, adjustT_id (by linarith) (by linarith),
          hue2rgbVal_eq_p (by linarith)]))

/-- C3 counterexample: the HSL→RGB→HSL drift is NOT bounded by 1 per
component.  At hsl(200, 0%, 50%) the hue comes back as 0 (drift 200), and
at hsl(0, 50%, 1%) the saturation comes back as 60 (drift 10). -/
theorem C3_drift_unbounded_cex :
    rgbToHsl (hslToRgb ⟨200, 0, 50⟩) = ⟨0, 0, 50⟩ ∧
      ¬(200 - (rgbToHsl (hslToRgb ⟨200, 0, 50⟩)).h ≤ 1) ∧
      rgbToHsl (hslToRgb ⟨0, 50, 1⟩) = ⟨0, 60, 1⟩ ∧
      ¬((rgbToHsl (hslToRgb ⟨0, 50, 1⟩)).s - 50 ≤ 1) := by
  have h1 : hslToRgb ⟨200, 0, 50⟩ = ⟨128, 128, 128⟩ := by
    unfold hslToRgb
    norm_num [jround]
  have h2 : rgbToHsl ⟨128, 128, 128⟩ = ⟨0, 0, 50⟩ := by
    unfold rgbToHsl
    norm_num [jround, max_def, min_def]
  have h3 : hslToRgb ⟨0, 50, 1⟩ = ⟨4, 1, 1⟩ := by
    unfold hslToRgb hue2rgb
    norm_num [jround]
  have h4 : rgbToHsl ⟨4, 1, 1⟩ = ⟨0, 60, 1⟩ := by
    unfold rgbToHsl
    norm_num [jround, max_def, min_def]
  rw [h1, h2, h3, h4]
  refine ⟨rfl, by norm_num, rfl, by norm_num⟩

/-- C3 (amended): over the claimed integer domain the drift of hue and
saturation is unbounded (see the counterexample), but the LIGHTNESS
component survives the HSL→RGB→HSL round trip exactly. -/
theorem C3_lightness_exact (h s l : ℤ) (hh : 0 ≤ h ∧ h < 360)
    (hs : 0 ≤ s ∧ s ≤ 100) (hl : 0 ≤ l ∧ l ≤ 100) :
    (rgbToHsl (hslToRgb ⟨h, s, l⟩)).l = l := by
  by_cases hz : ((s : ℚ) / 100) = 0
  · exact hslToRgb_l_roundtrip_s0 hz
  · exact hslToRgb_l_roundtrip_pos hz hh hs hl

/-- C3 witness at hsl(37, 83, 41). -/
theorem C3_lightness_exact_witness :
    ((0 : ℤ) ≤ 37 ∧ (37 : ℤ) < 360) ∧ ((0 : ℤ) ≤ 83 ∧ (83 : ℤ) ≤ 100) ∧
      ((0 : ℤ) ≤ 41 ∧ (41 : ℤ) ≤ 100) ∧
      (rgbToHsl (hslToRgb ⟨37, 83, 41⟩)).l = 41 :=
  ⟨⟨by norm_num, by norm_num⟩, ⟨by norm_num, by norm_num⟩, ⟨by norm_num, by norm_num⟩,
    C3_lightness_exact 37 83 41 (by norm_num) (by norm_num) (by norm_num)⟩

/-! ### Claim C4: character-level lemmas for the hex branch -/

theorem char_ofNat_toNat {n : ℕ} (h1 : 65 ≤ n) (h2 : n ≤ 90) : (Char.ofNat n).toNat = n := by
  unfold Char.ofNat
  rw [dif_pos (Or.inl (by omega : n < 0xd800))]
  unfold Char.ofNatAux Char.toNat
  simp [UInt32.ofNat', UInt32.toNat, BitVec.toNat_ofNatLt]

theorem char_toNat_ne {a b : Char} (h : a.toNat ≠ b.toNat) : a ≠ b := fun he =>
  h (congrArg Char.toNat he)

theorem isHexCh_ranges {c : Char} (h : isHexCh c = true) :
    (48 ≤ c.toNat ∧ c.toNat ≤ 57) ∨ (97 ≤ c.toNat ∧ c.toNat ≤ 102) ∨
      (65 ≤ c.toNat ∧ c.toNat ≤ 70) := by
  simpa only [isHexCh, Bool.or_eq_true, Bool.and_eq_true, decide_eq_true_eq, or_assoc] using h


/-- Upper-casing a hex digit: stays hex, becomes upper-case, keeps value. -/
theorem jsToUpperChar_hex {c : Char} (h : isHexCh c = true) :
    isHexCh (jsToUpperChar c) = true ∧ isUpperHexCh (jsToUpperChar c) = true ∧
      hexCharVal (jsToUpperChar c) = hexCharVal c := by
  rcases isHexCh_ranges h with hr | hr | hr
  · have hup : jsToUpperChar c = c := by
      unfold jsToUpperChar
      rw [if_neg (by simp only [Bool.and_eq_true, decide_eq_true_eq, not_and]; omega)]
    rw [hup]
    refine ⟨h, ?_, rfl⟩
    simp only [isUpperHexCh, Bool.or_eq_true, Bool.and_eq_true, decide_eq_true_eq]
    omega
  · have hup : (jsToUpperChar c).toNat = c.toNat - 32 := by
      unfold jsToUpperChar
      rw [if_pos (by simp only [Bool.and_eq_true, decide_eq_true_eq]; omega)]
      exact char_ofNat_toNat (by omega) (by omega)
    refine ⟨?_, ?_, ?_⟩
    · simp only [isHexCh, Bool.or_eq_true, Bool.and_eq_true, decide_eq_true_eq, hup]
      omega
    · simp only [isUpperHexCh, Bool.or_eq_true, Bool.and_eq_true, decide_eq_true_eq, hup]
      omega
    · unfold hexCharVal
      rw [hup, if_neg (by omega), if_pos (by omega), if_pos (by omega)]
      omega
  · have hup : jsToUpperChar c = c := by
      unfold jsToUpperChar
      rw [if_neg (by simp only [Bool.and_eq_true, decide_eq_true_eq, not_and]; omega)]
    rw [hup]
    refine ⟨h, ?_, rfl⟩
    simp only [isUpperHexCh, Bool.or_eq_true, Bool.and_eq_true, decide_eq_true_eq]
    omega

theorem parseIntHex_two_hex {x y : Char} (hx : isHexCh x = true) (hy : isHexCh y = true) :
    parseIntHex [x, y] = some ((16 * hexCharVal x + hexCharVal y : ℕ) : ℤ) := by
  have hxs : isSpaceCh x = false := isSpaceCh_of_isHexCh hx
  have hxr := isHexCh_ranges hx
  have hyr := isHexCh_ranges hy
  have hxminus : ¬(x = '-') := char_toNat_ne (by rw [show ('-').toNat = 45 from rfl]; omega)
  have hxplus : ¬(x = '+') := char_toNat_ne (by rw [show ('+').toNat = 43 from rfl]; omega)
  have hylowx : ¬(y = 'x') := char_toNat_ne (by rw [show ('x').toNat = 120 from rfl]; omega)
  have hyupx : ¬(y = 'X') := char_toNat_ne (by rw [show ('X').toNat = 88 from rfl]; omega)
  have hdrop : List.dropWhile isSpaceCh [x, y] = [x, y] := by
    rw [List.dropWhile_cons, hxs]
    simp
  have htake : List.takeWhile isHexCh [x, y] = [x, y] := by
    rw [List.takeWhile_cons, hx, List.takeWhile_cons, hy]
    simp
  unfold parseIntHex
  simp only [hdrop, htake, List.head?_cons, List.tail_cons, Option.some.injEq,
    eq_false hxminus, eq_false hxplus, eq_false hylowx, eq_false hyupx]
  norm_num
  simp only [eq_false hylowx, eq_false hyupx, or_self, and_false, if_false]
  refine ⟨⟨by norm_num, by simpa using hx⟩, ?_⟩
  rw [htake]
  simp only [hexVal, List.foldl_cons, List.foldl_nil]
  push_cast
  ring

theorem hexToRgb_hash6 {a1 a2 a3 a4 a5 a6 : Char}
    (h1 : isHexCh a1 = true) (h2 : isHexCh a2 = true) (h3 : isHexCh a3 = true)
    (h4 : isHexCh a4 = true) (h5 : isHexCh a5 = true) (h6 : isHexCh a6 = true) :
    hexToRgb ('#' :: [a1, a2, a3, a4, a5, a6]) =
      rgbnOf ⟨((16 * hexCharVal a1 + hexCharVal a2 : ℕ) : ℤ),
        ((16 * hexCharVal a3 + hexCharVal a4 : ℕ) : ℤ),
        ((16 * hexCharVal a5 + hexCharVal a6 : ℕ) : ℤ)⟩ := by
  have hshape : ('#' :: [a1, a2, a3, a4, a5, a6]) =
      '#' :: ([a1, a2] ++ [a3, a4] ++ [a5, a6]) := rfl
  rw [hshape, @hexToRgb_of_pairs [a1, a2] [a3, a4] [a5, a6] rfl rfl rfl,
    parseIntHex_two_hex h1 h2,
    parseIntHex_two_hex h3 h4, parseIntHex_two_hex h5 h6]
  rfl

/-- The `#`-branch output for a valid 6-digit hex tail satisfies the full
invariant. -/
theorem colorInvariant_hash6 {a1 a2 a3 a4 a5 a6 : Char}
    (h1 : isHexCh a1 = true) (h2 : isHexCh a2 = true) (h3 : isHexCh a3 = true)
    (h4 : isHexCh a4 = true) (h5 : isHexCh a5 = true) (h6 : isHexCh a6 = true) :
    colorInvariant
      { hex := jsToUpper ('#' :: [a1, a2, a3, a4, a5, a6]),
        rgb := hexToRgb ('#' :: [a1, a2, a3, a4, a5, a6]),
        hsl := rgbToHslN (hexToRgb ('#' :: [a1, a2, a3, a4, a5, a6])) } := by
  have hmap : jsToUpper ('#' :: [a1, a2, a3, a4, a5, a6]) =
      '#' :: [jsToUpperChar a1, jsToUpperChar a2, jsToUpperChar a3, jsToUpperChar a4,
        jsToUpperChar a5, jsToUpperChar a6] := by
    simp [jsToUpper, jsToUpperChar_hash]
  unfold colorInvariant
  refine ⟨?_, ?_, ?_, ?_, rfl⟩
  · rw [hmap]
    rfl
  · rw [hmap]
    rfl
  · rw [hmap]
    intro c hc
    simp only [List.tail_cons, List.mem_cons, List.not_mem_nil, or_false] at hc
    rcases hc with rfl | rfl | rfl | rfl | rfl | rfl
    · exact (jsToUpperChar_hex h1).2.1
    · exact (jsToUpperChar_hex h2).2.1
    · exact (jsToUpperChar_hex h3).2.1
    · exact (jsToUpperChar_hex h4).2.1
    · exact (jsToUpperChar_hex h5).2.1
    · exact (jsToUpperChar_hex h6).2.1
  · rw [hmap, hexToRgb_hash6 (jsToUpperChar_hex h1).1 (jsToUpperChar_hex h2).1
      (jsToUpperChar_hex h3).1 (jsToUpperChar_hex h4).1 (jsToUpperChar_hex h5).1
      (jsToUpperChar_hex h6).1, hexToRgb_hash6 h1 h2 h3 h4 h5 h6,
      (jsToUpperChar_hex h1).2.2, (jsToUpperChar_hex h2).2.2, (jsToUpperChar_hex h3).2.2,
      (jsToUpperChar_hex h4).2.2, (jsToUpperChar_hex h5).2.2, (jsToUpperChar_hex h6).2.2]

theorem rgbToHex_shape {x y z : ℤ} (hx : 0 ≤ x ∧ x ≤ 255) (hy : 0 ≤ y ∧ y ≤ 255)
    (hz : 0 ≤ z ∧ z ≤ 255) :
    (rgbToHex ⟨x, y, z⟩).length = 7 ∧ (rgbToHex ⟨x, y, z⟩).head? = some '#' ∧
      ∀ c ∈ (rgbToHex ⟨x, y, z⟩).tail, isUpperHexCh c = true := by
  rw [rgbToHex_eq_hexPair hx.1 hy.1 hz.1]
  obtain ⟨la, -, ua⟩ := hexPair_facts x.toNat (by omega)
  obtain ⟨lb, -, ub⟩ := hexPair_facts y.toNat (by omega)
  obtain ⟨lc, -, uc⟩ := hexPair_facts z.toNat (by omega)
  refine ⟨?_, rfl, ?_⟩
  · simp [la, lb, lc]
  · intro c hc
    simp only [List.tail_cons, List.mem_append] at hc
    rcases hc with (hc | hc) | hc
    · exact List.all_eq_true.mp ua c hc
    · exact List.all_eq_true.mp ub c hc
    · exact List.all_eq_true.mp uc c hc

theorem qfun_le_one {s l : ℤ} (hs : 0 ≤ s ∧ s ≤ 100) (hl : 0 ≤ l ∧ l ≤ 100) :
    qfun s l ≤ 1 := by
  have hs0 : (0 : ℚ) ≤ (s : ℚ) / 100 := div_nonneg (by exact_mod_cast hs.1) (by norm_num)
  have hs1 : (s : ℚ) / 100 ≤ 1 := by
    rw [div_le_one (by norm_num)]
    exact_mod_cast hs.2
  have hl0 : (0 : ℚ) ≤ (l : ℚ) / 100 := div_nonneg (by exact_mod_cast hl.1) (by norm_num)
  have hl1 : (l : ℚ) / 100 ≤ 1 := by
    rw [div_le_one (by norm_num)]
    exact_mod_cast hl.2
  unfold qfun
  split_ifs with hcase
  · nlinarith
  · nlinarith [mul_nonneg (by linarith : (0 : ℚ) ≤ 1 - (l : ℚ) / 100)
      (by linarith : (0 : ℚ) ≤ 1 - (s : ℚ) / 100)]

theorem qfun_p_nonneg {s l : ℤ} (hs : 0 ≤ s ∧ s ≤ 100) (hl : 0 ≤ l ∧ l ≤ 100) :
    0 ≤ 2 * ((l : ℚ) / 100) - qfun s l := by
  have hs0 : (0 : ℚ) ≤ (s : ℚ) / 100 := div_nonneg (by exact_mod_cast hs.1) (by norm_num)
  have hs1 : (s : ℚ) / 100 ≤ 1 := by
    rw [div_le_one (by norm_num)]
    exact_mod_cast hs.2
  have hl0 : (0 : ℚ) ≤ (l : ℚ) / 100 := div_nonneg (by exact_mod_cast hl.1) (by norm_num)
  have hl1 : (l : ℚ) / 100 ≤ 1 := by
    rw [div_le_one (by norm_num)]
    exact_mod_cast hl.2
  unfold qfun
  split_ifs with hcase
  · nlinarith [mul_nonneg hl0 (by linarith : (0 : ℚ) ≤ 1 - (s : ℚ) / 100)]
  · nlinarith [mul_nonneg (by linarith : (0 : ℚ) ≤ (s : ℚ) / 100)
      (by linarith : (0 : ℚ) ≤ 1 - (l : ℚ) / 100)]

/-- For hue unrestricted (any nonnegative parsed integer) and in-range
saturation/lightness, `hslToRgb` stays within [0,255] per channel. -/
theorem hslToRgb_bounds {h s l : ℤ} (hh : 0 ≤ h) (hs : 0 ≤ s ∧ s ≤ 100)
    (hl : 0 ≤ l ∧ l ≤ 100) :
    (0 ≤ (hslToRgb ⟨h, s, l⟩).r ∧ (hslToRgb ⟨h, s, l⟩).r ≤ 255) ∧
      (0 ≤ (hslToRgb ⟨h, s, l⟩).g ∧ (hslToRgb ⟨h, s, l⟩).g ≤ 255) ∧
      (0 ≤ (hslToRgb ⟨h, s, l⟩).b ∧ (hslToRgb ⟨h, s, l⟩).b ≤ 255) := by
  have hl0 : (0 : ℚ) ≤ (l : ℚ) / 100 := div_nonneg (by exact_mod_cast hl.1) (by norm_num)
  have hl1 : (l : ℚ) / 100 ≤ 1 := by
    rw [div_le_one (by norm_num)]
    exact_mod_cast hl.2
  have hh0 : (0 : ℚ) ≤ (h : ℚ) / 360 := div_nonneg (by exact_mod_cast hh) (by norm_num)
  by_cases hz : ((s : ℚ) / 100) = 0
  · rw [hslToRgb_s_zero hz]
    refine ⟨⟨?_, ?_⟩, ⟨?_, ?_⟩, ⟨?_, ?_⟩⟩ <;>
      first
        | exact le_jround (by push_cast; nlinarith)
        | exact jround_le (by push_cast; nlinarith)
  · rw [hslToRgb_s_pos hz]
    have hle : 2 * ((l : ℚ) / 100) - qfun s l ≤ qfun s l := by
      have := le_qfun hs hl
      linarith
    have hp0 : 0 ≤ 2 * ((l : ℚ) / 100) - qfun s l := qfun_p_nonneg hs hl
    have hq1 : qfun s l ≤ 1 := qfun_le_one hs hl
    have m1 := hue2rgb_mem hle (by linarith : (-1 : ℚ) ≤ (h : ℚ) / 360 + 1 / 3)
    have m2 := hue2rgb_mem hle (by linarith : (-1 : ℚ) ≤ (h : ℚ) / 360)
    have m3 := hue2rgb_mem hle (by linarith : (-1 : ℚ) ≤ (h : ℚ) / 360 - 1 / 3)
    refine ⟨⟨?_, ?_⟩, ⟨?_, ?_⟩, ⟨?_, ?_⟩⟩
    · exact le_jround (by push_cast; nlinarith [m1.1])
    · exact jround_le (by push_cast; nlinarith [m1.2])
    · exact le_jround (by push_cast; nlinarith [m2.1])
    · exact jround_le (by push_cast; nlinarith [m2.2])
    · exact le_jround (by push_cast; nlinarith [m3.1])
    · exact jround_le (by push_cast; nlinarith [m3.2])

theorem hslToRgb_gray : hslToRgb ⟨200, 0, 50⟩ = ⟨128, 128, 128⟩ := by
  unfold hslToRgb
  norm_num [jround]

theorem rgbToHsl_gray : rgbToHsl ⟨128, 128, 128⟩ = ⟨0, 0, 50⟩ := by
  unfold rgbToHsl
  norm_num [jround, max_def, min_def]

/-- C4 counterexample: the full invariant fails on accepted inputs.  For
`hsl(200, 0%, 50%)` the stored `hsl` is the parsed triple, which differs
from `rgbToHsl` of the stored `rgb`; and for shorthand `#F00` the stored
hex is not a 6-digit `#RRGGBB` string. -/
theorem C4_invariant_cex :
    parseColor "hsl(200, 0%, 50%)" =
        .ok { hex := "#808080".data, rgb := rgbnOf ⟨128, 128, 128⟩,
              hsl := hslnOf ⟨200, 0, 50⟩ } ∧
      hslnOf ⟨200, 0, 50⟩ ≠ rgbToHslN (rgbnOf ⟨128, 128, 128⟩) ∧
      parseColor "#F00" =
        .ok { hex := "#F00".data, rgb := rgbnOf ⟨255, 0, 0⟩,
              hsl := hslnOf ⟨0, 100, 50⟩ } ∧
      ("#F00".data).length ≠ 7 := by
  refine ⟨?_, ?_, ?_, by decide⟩
  · rw [show parseColor "hsl(200, 0%, 50%)" = parseColorL ("hsl(200, 0%, 50%)".data) from rfl,
      @parseColorL_hsl_branch ("hsl(200, 0%, 50%)".data) ['2', '0', '0'] ['0'] ['5', '0']
        (by decide) (by decide) (by decide)]
    rw [show parseIntDec ['2', '0', '0'] = 200 from by decide,
      show parseIntDec ['0'] = 0 from by decide,
      show parseIntDec ['5', '0'] = 50 from by decide, hslToRgb_gray]
    rfl
  · rw [show rgbToHslN (rgbnOf ⟨128, 128, 128⟩) = hslnOf (rgbToHsl ⟨128, 128, 128⟩) from rfl,
      rgbToHsl_gray]
    decide
  · rw [show parseColor "#F00" = parseColorL ("#F00".data) from rfl,
      parseColorL_hash_branch (by decide)]
    rw [show trimL ("#F00".data) = "#F00".data from by decide,
      show hexToRgb ("#F00".data) = rgbnOf ⟨255, 0, 0⟩ from by decide,
      show rgbToHslN (rgbnOf ⟨255, 0, 0⟩) = hslnOf (rgbToHsl ⟨255, 0, 0⟩) from rfl,
      rgbToHsl_red]
    rfl

/-- C4 (amended): the invariant `hex = '#' + 6 upper hex digits`,
`rgb = hexToRgb hex`, `hsl = rgbToHsl rgb` holds for every color parsed
from a full 6-digit `#`-hex input, from an `rgb(...)` match whose channels
are ≤ 255, and from a bare 6-hex-digit input; for an `hsl(...)` match with
s,l ≤ 100 the hex/rgb part holds but the stored `hsl` is the parsed
triple, not `rgbToHsl rgb`. -/
theorem C4_parse_invariant (cs : List Char) :
    (∀ a1 a2 a3 a4 a5 a6 : Char,
        trimL cs = '#' :: [a1, a2, a3, a4, a5, a6] →
        isHexCh a1 = true → isHexCh a2 = true → isHexCh a3 = true →
        isHexCh a4 = true → isHexCh a5 = true → isHexCh a6 = true →
        ∀ info, parseColorL cs = .ok info → colorInvariant info) ∧
      (∀ d1 d2 d3 : List Char,
        ¬((trimL cs).head? = some '#') → searchRgb (trimL cs) = some (d1, d2, d3) →
        parseIntDec d1 ≤ 255 → parseIntDec d2 ≤ 255 → parseIntDec d3 ≤ 255 →
        ∀ info, parseColorL cs = .ok info → colorInvariant info) ∧
      (∀ e1 e2 e3 : List Char,
        ¬((trimL cs).head? = some '#') → searchRgb (trimL cs) = none →
        searchHsl (trimL cs) = some (e1, e2, e3) →
        parseIntDec e2 ≤ 100 → parseIntDec e3 ≤ 100 →
        ∀ info, parseColorL cs = .ok info →
          info.hex.length = 7 ∧ info.hex.head? = some '#' ∧
            (∀ c ∈ info.hex.tail, isUpperHexCh c = true) ∧
            hexToRgb info.hex = info.rgb ∧
            info.hsl = hslnOf ⟨parseIntDec e1, parseIntDec e2, parseIntDec e3⟩) ∧
      (∀ a1 a2 a3 a4 a5 a6 : Char,
        ¬((trimL cs).head? = some '#') → searchRgb (trimL cs) = none →
        searchHsl (trimL cs) = none → trimL cs = [a1, a2, a3, a4, a5, a6] →
        isHexCh a1 = true → isHexCh a2 = true → isHexCh a3 = true →
        isHexCh a4 = true → isHexCh a5 = true → isHexCh a6 = true →
        ∀ info, parseColorL cs = .ok info → colorInvariant info) := by
  refine ⟨?_, ?_, ?_, ?_⟩
  · intro a1 a2 a3 a4 a5 a6 htr h1 h2 h3 h4 h5 h6 info hok
    rw [parseColorL_hash_branch (by rw [htr]; rfl)] at hok
    injection hok with hinfo
    subst hinfo
    rw [htr]
    exact colorInvariant_hash6 h1 h2 h3 h4 h5 h6
  · intro d1 d2 d3 hh hsearch hb1 hb2 hb3 info hok
    rw [parseColorL_rgb_branch hh hsearch] at hok
    injection hok with hinfo
    subst hinfo
    have nn1 : 0 ≤ parseIntDec d1 := Int.natCast_nonneg _
    have nn2 : 0 ≤ parseIntDec d2 := Int.natCast_nonneg _
    have nn3 : 0 ≤ parseIntDec d3 := Int.natCast_nonneg _
    obtain ⟨l7, hd, up⟩ := rgbToHex_shape ⟨nn1, hb1⟩ ⟨nn2, hb2⟩ ⟨nn3, hb3⟩
    exact ⟨l7, hd, up, hexToRgb_rgbToHex nn1 hb1 nn2 hb2 nn3 hb3, rfl⟩
  · intro e1 e2 e3 hh hrgb hsearch hb2 hb3 info hok
    rw [parseColorL_hsl_branch hh hrgb hsearch] at hok
    injection hok with hinfo
    subst hinfo
    have nn1 : 0 ≤ parseIntDec e1 := Int.natCast_nonneg _
    have nn2 : 0 ≤ parseIntDec e2 := Int.natCast_nonneg _
    have nn3 : 0 ≤ parseIntDec e3 := Int.natCast_nonneg _
    obtain ⟨br, bg, bb⟩ := hslToRgb_bounds nn1 ⟨nn2, hb2⟩ ⟨nn3, hb3⟩
    have hrgbv : hslToRgb ⟨parseIntDec e1, parseIntDec e2, parseIntDec e3⟩ =
        (⟨(hslToRgb ⟨parseIntDec e1, parseIntDec e2, parseIntDec e3⟩).r,
          (hslToRgb ⟨parseIntDec e1, parseIntDec e2, parseIntDec e3⟩).g,
          (hslToRgb ⟨parseIntDec e1, parseIntDec e2, parseIntDec e3⟩).b⟩ : RGB) := rfl
    rw [hrgbv]
    obtain ⟨l7, hd, up⟩ := rgbToHex_shape ⟨br.1, br.2⟩ ⟨bg.1, bg.2⟩ ⟨bb.1, bb.2⟩
    exact ⟨l7, hd, up,
      hexToRgb_rgbToHex br.1 br.2 bg.1 bg.2 bb.1 bb.2, rfl⟩
  · intro a1 a2 a3 a4 a5 a6 hh hrgb hhsl htr h1 h2 h3 h4 h5 h6 info hok
    rw [parseColorL_hex6_branch hh hrgb hhsl
      (by rw [htr]; simp [isHex6, h1, h2, h3, h4, h5, h6])] at hok
    injection hok with hinfo
    subst hinfo
    rw [htr]
    exact colorInvariant_hash6 h1 h2 h3 h4 h5 h6

/-- C4 witness: the rgb branch at `rgb(10, 20, 30)`. -/
theorem C4_parse_invariant_witness :
    colorInvariant
      { hex := rgbToHex ⟨parseIntDec ['1', '0'], parseIntDec ['2', '0'], parseIntDec ['3', '0']⟩,
        rgb := rgbnOf ⟨parseIntDec ['1', '0'], parseIntDec ['2', '0'], parseIntDec ['3', '0']⟩,
        hsl := hslnOf (rgbToHsl ⟨parseIntDec ['1', '0'], parseIntDec ['2', '0'],
          parseIntDec ['3', '0']⟩) } :=
  (C4_parse_invariant ("rgb(10, 20, 30)".data)).2.1 ['1', '0'] ['2', '0'] ['3', '0']
    (by decide) (by decide) (by decide) (by decide) (by decide) _
    (parseColorL_rgb_branch (by decide) (by decide))
